import Mathlib

/-!
# Verification of the `cotacoes_moedas` ledger engine

A shallow embedding of the core of `src/cotacoes_moedas/storage.py`,
`src/cotacoes_moedas/juros.py` and the fetch-selection logic of
`src/main.py`, together with theorems settling the frozen claims about
the natural-language specification of the repository.

Modelling conventions:
* A worksheet is a list of rows; a row is a list of cells.  Rows and
  columns are 1-indexed, as in openpyxl.  Reading a cell outside the
  current extent yields a blank cell with the default number format,
  and writing outside the extent pads with such cells (openpyxl
  materialises cells on demand in the same way; `max_row` is the
  length of the row list).
* Cell values are `blank` (Python `None`), strings, exact decimals
  (`ℚ`, mirroring `decimal.Decimal`) and calendar dates.  The source's
  `_coerce_date` also recognises `datetime` objects and textual dates;
  both are represented here by the `dateV` constructor, so `coerceDate`
  answers exactly the question the source asks: "is this cell a date,
  and which one".
* Python exceptions are modelled with `Except`; functions that cannot
  raise are total.
-/

namespace CotacoesMoedas

/-- A calendar date (year, month, day). -/
structure YMD where
  y : Nat
  m : Nat
  d : Nat
deriving DecidableEq, Repr

/-- Strict ordering of dates, lexicographic on (year, month, day). -/
def YMD.lt (a b : YMD) : Bool :=
  a.y < b.y || (a.y = b.y && (a.m < b.m || (a.m = b.m && a.d < b.d)))

/-- The value stored in one worksheet cell: Python `None`, `str`,
`Decimal`/`int`/`float` (exact decimals, modelled by `ℚ`), or a
`date`/`datetime` (modelled by `YMD`). -/
inductive CellValue where
  | blank
  | str (s : String)
  | num (q : ℚ)
  | dateV (d : YMD)
deriving DecidableEq, Repr

/-- One worksheet cell: a value plus its number format
(openpyxl's default format is `General`). -/
structure Cell where
  value : CellValue
  fmt : String
deriving DecidableEq, Repr

/-- A freshly materialised cell. -/
def Cell.default : Cell := ⟨.blank, "General"⟩

/-- A worksheet row (cells of columns 1, 2, …). -/
abbrev SheetRow := List Cell

/-- A worksheet (rows 1, 2, …); `max_row` is the list length. -/
abbrev Sheet := List SheetRow

/-- Write position `i` (0-based) of a list through `f`, padding with
`dflt` when the list is too short — the openpyxl behaviour of
materialising cells on demand. -/
def setAt (dflt : α) (f : α → α) : Nat → List α → List α
  | 0, [] => [f dflt]
  | 0, x :: xs => f x :: xs
  | Nat.succ n, [] => dflt :: setAt dflt f n []
  | Nat.succ n, x :: xs => x :: setAt dflt f n xs

theorem getD_setAt (dflt : α) (f : α → α) :
    ∀ (i j : Nat) (l : List α),
      (setAt dflt f i l).getD j dflt =
        if i = j then f (l.getD i dflt) else l.getD j dflt := by
  intro i
  induction i with
  | zero =>
    intro j l
    cases l <;> cases j <;> simp [setAt]
  | succ n ih =>
    intro j l
    cases l with
    | nil =>
      cases j with
      | zero => simp [setAt]
      | succ m =>
        simp only [setAt, List.getD_cons_succ]
        rw [ih m []]
        by_cases h : n = m <;> simp [h]
    | cons x xs =>
      cases j with
      | zero => simp [setAt]
      | succ m =>
        simp only [setAt, List.getD_cons_succ]
        rw [ih m xs]
        by_cases h : n = m <;> simp [h]

theorem length_setAt (dflt : α) (f : α → α) :
    ∀ (i : Nat) (l : List α), (setAt dflt f i l).length = max l.length (i + 1) := by
  intro i
  induction i with
  | zero => intro l; cases l <;> simp [setAt]
  | succ n ih =>
    intro l
    cases l with
    | nil => simp [setAt, ih]
    | cons x xs => simp [setAt, ih]; omega

/-- Read cell `(r, c)` (1-indexed), blank-by-default. -/
def getCell (s : Sheet) (r c : Nat) : Cell :=
  (s.getD (r - 1) []).getD (c - 1) Cell.default

/-- Apply `f` to cell `(r, c)` (1-indexed), materialising it if needed. -/
def sheetModify (s : Sheet) (r c : Nat) (f : Cell → Cell) : Sheet :=
  setAt [] (fun row => setAt Cell.default f (c - 1) row) (r - 1) s

theorem getCell_sheetModify (s : Sheet) (r c : Nat) (f : Cell → Cell)
    (r' c' : Nat) (hr : 1 ≤ r) (hc : 1 ≤ c) (hr' : 1 ≤ r') (hc' : 1 ≤ c') :
    getCell (sheetModify s r c f) r' c' =
      if r = r' ∧ c = c' then f (getCell s r c) else getCell s r' c' := by
  unfold getCell sheetModify
  rw [getD_setAt]
  by_cases hrow : r = r'
  · subst hrow
    simp only [eq_self_iff_true, if_true]
    rw [getD_setAt]
    by_cases hcol : c = c'
    · subst hcol; simp
    · have h2 : ¬(c - 1 = c' - 1) := by omega
      simp [h2, hcol]
  · have h1 : ¬(r - 1 = r' - 1) := by omega
    simp [h1, hrow]

theorem length_sheetModify (s : Sheet) (r c : Nat) (f : Cell → Cell) :
    (sheetModify s r c f).length = max s.length r ∨
      (sheetModify s r c f).length = max s.length (r - 1 + 1) := by
  right; exact length_setAt _ _ _ _

/-! ## Number formats and layout constants (`storage.py` module constants) -/

def dateNumberFormat : String := "dd/mm/yyyy"

def quoteNumberFormat : String := "0.0000"

def percentNumberFormat : String := "0.00%"

def cdiNumberFormat : String := "0.0000000000"

/-- Source `_LOG_COLUMN_INDEX = 15` (column O). -/
def logColumnIndex : Nat := 15

/-! ## Kernel-computable rational helpers

The standard `ℚ` operations (`Rat.add`, `Rat.mul`, `Rat.inv`) do not
reduce inside the Lean kernel, so the embedding uses the following
`mkRat`-based equivalents — each proved equal to the standard
operation — so that every definition can be evaluated on concrete
inputs by `decide`/`rfl`. -/

/-- Rational `a + b` via `mkRat`. -/
def qAdd (a b : ℚ) : ℚ := mkRat (a.num * b.den + b.num * a.den) (a.den * b.den)

/-- Rational `-a` via `mkRat`. -/
def qNeg (a : ℚ) : ℚ := mkRat (-a.num) a.den

/-- Rational `a / 10^p` via `mkRat` (the only divisions the ledger code performs
are by powers of ten). -/
def qDivPow10 (a : ℚ) (p : Nat) : ℚ := mkRat a.num (a.den * 10 ^ p)

theorem qAdd_eq (a b : ℚ) : qAdd a b = a + b := by
  have ha : (a.den : ℚ) ≠ 0 := Nat.cast_ne_zero.mpr a.den_nz
  have hb : (b.den : ℚ) ≠ 0 := Nat.cast_ne_zero.mpr b.den_nz
  rw [qAdd, Rat.mkRat_eq_div]
  push_cast
  conv_rhs => rw [← Rat.num_div_den a, ← Rat.num_div_den b]
  rw [div_add_div _ _ ha hb]
  ring_nf

theorem qNeg_eq (a : ℚ) : qNeg a = -a := by
  rw [qNeg, Rat.mkRat_eq_div]
  push_cast
  rw [neg_div, Rat.num_div_den]

theorem qDivPow10_eq (a : ℚ) (p : Nat) : qDivPow10 a p = a / 10 ^ p := by
  rw [qDivPow10, Rat.mkRat_eq_div]
  push_cast
  rw [div_mul_eq_div_div, Rat.num_div_den]

/-! ## Kernel-computable string helpers

The core `String` functions (`trim`, `split`, `toUpper`,
`startsWith`) also fail to reduce in the kernel, so the embedding works
on the underlying character lists with structural recursion. -/

/-- Python `str.strip()` on the character list. -/
def trimChars (l : List Char) : List Char :=
  ((l.dropWhile Char.isWhitespace).reverse.dropWhile Char.isWhitespace).reverse

/-- Python `str.strip()`. -/
def strTrim (s : String) : String := ⟨trimChars s.toList⟩

/-- Python `str.split()` (split on whitespace runs, dropping empties). -/
def wsWords (l : List Char) : List (List Char) :=
  (l.foldr
      (fun c acc =>
        if c.isWhitespace then [] :: acc else (c :: acc.headD []) :: acc.tail)
      [[]]).filter (fun w => ¬w.isEmpty)

/-- Python `" ".join(value.split())`: collapse whitespace runs to single
spaces and strip the ends. -/
def normalizeSpaces (s : String) : String :=
  ⟨List.intercalate [' '] (wsWords s.toList)⟩

/-- Is `pre` an initial segment of `l`? (Python `str.startswith`.) -/
def hasInit : List Char → List Char → Bool
  | [], _ => true
  | _ :: _, [] => false
  | a :: pre, b :: l => a = b && hasInit pre l

/-! ## Blankness, truthiness and decimal machinery -/

/-- Source `_is_blank`: `None`, or a string that strips to empty. -/
def isBlank : CellValue → Bool
  | .blank => true
  | .str s => (trimChars s.toList).isEmpty
  | .num _ => false
  | .dateV _ => false

/-- Python truthiness of a cell value (`if cell.value:`): `None` and the
empty string and the number zero are falsy; dates are truthy. -/
def truthy : CellValue → Bool
  | .blank => false
  | .str s => s ≠ ""
  | .num q => q ≠ 0
  | .dateV _ => true

/-- Source `_looks_like_log`: a string whose whitespace-normalised uppercase
form starts with `"OK "` or `"ERRO "`. -/
def looksLikeLog : CellValue → Bool
  | .str s =>
    let t := (normalizeSpaces s).toList.map Char.toUpper
    hasInit "OK ".toList t || hasInit "ERRO ".toList t
  | _ => false

/-- Source `Decimal.quantize(10^-p, ROUND_HALF_UP)`: round to `p` fractional
digits, ties away from zero.  For `q = ± natAbs/den` the rounded
magnitude is `⌊|q|·10^p + 1/2⌋ = (2·natAbs·10^p + den) / (2·den)`
(natural division), computed here entirely at the `Nat` level so the
kernel can evaluate it. -/
def quantizeHalfUp (p : Nat) (q : ℚ) : ℚ :=
  let n : Nat := (2 * q.num.natAbs * 10 ^ p + q.den) / (2 * q.den)
  if q.num < 0 then mkRat (-(n : ℤ)) (10 ^ p) else mkRat (n : ℤ) (10 ^ p)

theorem abs_rat_eq (q : ℚ) : |q| = (q.num.natAbs : ℚ) / q.den := by
  rcases abs_cases q with ⟨h1, h2⟩ | ⟨h1, h2⟩
  · rw [h1]
    conv_lhs => rw [← Rat.num_div_den q]
    congr 1
    rw [Int.cast_natAbs]
    exact_mod_cast (abs_of_nonneg (Rat.num_nonneg.mpr h2)).symm
  · rw [h1]
    conv_lhs => rw [← Rat.num_div_den q]
    rw [← neg_div]
    congr 1
    rw [Int.cast_natAbs]
    exact_mod_cast (abs_of_nonpos (Rat.num_nonpos.mpr h2.le)).symm

/-- Correctness: `quantizeHalfUp` is exactly round-half-up at `p` fractional digits:
the magnitude `⌊|q|·10^p + 1/2⌋ / 10^p` carrying the sign of `q`. -/
theorem quantizeHalfUp_eq (p : Nat) (q : ℚ) :
    quantizeHalfUp p q =
      (if q < 0 then -(⌊|q| * 10 ^ p + 1 / 2⌋ : ℚ) else (⌊|q| * 10 ^ p + 1 / 2⌋ : ℚ)) /
        10 ^ p := by
  have hkey : |q| * 10 ^ p + 1 / 2 =
      (((2 * q.num.natAbs * 10 ^ p + q.den : ℕ) : ℤ) : ℚ) / ((2 * q.den : ℕ) : ℚ) := by
    have hd : (q.den : ℚ) ≠ 0 := Nat.cast_ne_zero.mpr q.den_nz
    rw [abs_rat_eq]
    generalize q.num.natAbs = N
    push_cast
    field_simp
    ring
  have hfloor : ⌊|q| * 10 ^ p + 1 / 2⌋ =
      ((2 * q.num.natAbs * 10 ^ p + q.den) / (2 * q.den) : ℕ) := by
    rw [hkey, Rat.floor_intCast_div_natCast]
    exact Int.ofNat_tdiv _ _ |>.symm
  rw [quantizeHalfUp, hfloor]
  by_cases hq : q < 0
  · rw [if_pos (Rat.num_neg.mpr hq), if_pos hq, Rat.mkRat_eq_div]
    push_cast
    ring
  · rw [if_neg (fun h => hq (Rat.num_neg.mp h)), if_neg hq, Rat.mkRat_eq_div]
    push_cast
    ring

/-- Source `_quantize_4`. -/
def quantize4 : ℚ → ℚ := quantizeHalfUp 4

/-- Source `_quantize_10`. -/
def quantize10 : ℚ → ℚ := quantizeHalfUp 10

/-- Digits to a natural number, most significant first. -/
def digitsToNat (l : List Char) : Nat :=
  l.foldl (fun acc ch => 10 * acc + (ch.toNat - '0'.toNat)) 0

/-- Grammar of an unsigned `decimal.Decimal` literal restricted to the
characters that survive the cleaning regex: `digits ['.' digits]` with
at least one digit (`"1"`, `"1."`, `".5"`, `"1.5"`; not `"."`, not two
dots, no stray sign). -/
def parseUnsignedDecimal (l : List Char) : Option ℚ :=
  let intPart := l.takeWhile Char.isDigit
  let rest := l.dropWhile Char.isDigit
  match rest with
  | [] => if intPart.isEmpty then none else some (mkRat (digitsToNat intPart) 1)
  | '.' :: frac =>
    if frac.all Char.isDigit ∧ (¬intPart.isEmpty ∨ ¬frac.isEmpty) then
      some (mkRat (digitsToNat intPart * 10 ^ frac.length + digitsToNat frac)
        (10 ^ frac.length))
    else none
  | _ => none

/-- Source `Decimal(text)` on cleaned text (only digits, `.` and `-` remain);
a leading `-` negates, any other `-` is invalid. -/
def parseDecimal (l : List Char) : Option ℚ :=
  match l with
  | '-' :: rest => (parseUnsignedDecimal rest).map qNeg
  | _ => parseUnsignedDecimal l

/-- Source `_to_decimal`: `None` for blanks, the number itself for numeric
cells, locale-normalised parsing for strings (strip everything but
digits, comma, dot and minus; with a comma present, dots are thousands
separators and the comma is the decimal point).  Returns `.error` where
the source raises (`TypeError` on other types, `InvalidOperation` on
unparsable text). -/
def toDecimal : CellValue → Except Unit (Option ℚ)
  | .blank => .ok none
  | .num q => .ok (some q)
  | .str s =>
    let t := s.trim
    if t = "" then .ok none
    else
      let cleaned := t.toList.filter (fun ch => ch.isDigit || ch = ',' || ch = '.' || ch = '-')
      let cleaned2 :=
        if cleaned.contains ',' then
          (cleaned.filter (fun ch => ch ≠ '.')).map (fun ch => if ch = ',' then '.' else ch)
        else cleaned
      match parseDecimal cleaned2 with
      | some q => .ok (some q)
      | none => .error ()
  | .dateV _ => .error ()

/-! ## Cell-level write primitive -/

/-- Source `_set_cell`: write `value` (and optionally the number format) at
`(r, c)` unless `overwrite` is off and the cell already holds a
non-blank value; reports whether the write happened. -/
def setCell (s : Sheet) (r c : Nat) (v : CellValue) (fmt : Option String)
    (overwrite : Bool) : Sheet × Bool :=
  if ¬overwrite ∧ ¬isBlank (getCell s r c).value then (s, false)
  else
    let s1 := sheetModify s r c (fun cell => { cell with value := v })
    let s2 :=
      match fmt with
      | some f => sheetModify s1 r c (fun cell => { cell with fmt := f })
      | none => s1
    (s2, true)

/-! ## Date coercion and row lookup -/

/-- Source `_coerce_date`: the date stored in a cell, if any.  `datetime`
objects and textual `dd/mm/yyyy` / `yyyy-mm-dd` dates of the source are
both represented by the `dateV` constructor (see the module comment). -/
def coerceDate : CellValue → Option YMD
  | .dateV d => some d
  | _ => none

/-- The data-row indices `3 … max_row` of a sheet
(`range(3, sheet.max_row + 1)`). -/
def dataRowIndices (s : Sheet) : List Nat :=
  List.range' 3 (s.length - 2)

/-- Source `_find_row_by_date`: first data row whose date cell holds the
target date. -/
def findRowByDate (s : Sheet) (target : YMD) : Option Nat :=
  (dataRowIndices s).find? (fun r => coerceDate (getCell s r 1).value = some target)

/-- Source `_find_last_date_row`: last data row carrying any date. -/
def findLastDateRow (s : Sheet) : Option Nat :=
  ((dataRowIndices s).filter (fun r => (coerceDate (getCell s r 1).value).isSome)).getLast?

/-- Source `_find_or_create_row_by_date`: the row for the date, appended after
the last dated row (or at row 3) when absent; a created row gets its
date cell written directly with the date number format. -/
def findOrCreateRowByDate (s : Sheet) (target : YMD) : Sheet × Nat :=
  match findRowByDate s target with
  | some r => (s, r)
  | none =>
    let r := (findLastDateRow s).getD 2 + 1
    let s1 := sheetModify s r 1 (fun cell => { cell with value := .dateV target })
    let s2 := sheetModify s1 r 1 (fun cell => { cell with fmt := dateNumberFormat })
    (s2, r)

/-- Source `_find_previous_non_blank_value`: scan rows `start_row - 1` down to
`3`, skipping undated rows, and return the first non-blank value of the
given column. -/
def findPreviousNonBlankValue (s : Sheet) (startRow col : Nat) : Option CellValue :=
  (((List.range' 3 (startRow - 3)).reverse).find? (fun r =>
      (coerceDate (getCell s r 1).value).isSome && !isBlank (getCell s r col).value)).map
    (fun r => (getCell s r col).value)

/-- Source `_repeat_previous_value_if_blank`: when the cell is still blank,
copy the nearest previous non-blank value (with the given number
format) and report `true`. -/
def repeatPreviousValueIfBlank (s : Sheet) (row col : Nat) (fmt : Option String) :
    Sheet × Bool :=
  if ¬isBlank (getCell s row col).value then (s, false)
  else
    match findPreviousNonBlankValue s row col with
    | none => (s, false)
    | some v =>
      if isBlank v then (s, false)
      else
        let s1 := sheetModify s row col (fun cell => { cell with value := v })
        let s2 :=
          match fmt with
          | some f => sheetModify s1 row col (fun cell => { cell with fmt := f })
          | none => s1
        (s2, true)

/-- Source `_find_last_updated_row`: the last data row with a truthy status
cell (column O); failing that, the last dated row; failing that, a
`ValueError`. -/
def findLastUpdatedRow (s : Sheet) : Except String Nat :=
  let lastLogged :=
    ((dataRowIndices s).filter (fun r => truthy (getCell s r logColumnIndex).value)).getLast?
  let lastDate :=
    ((dataRowIndices s).filter (fun r => (coerceDate (getCell s r 1).value).isSome)).getLast?
  match lastLogged with
  | some r => .ok r
  | none =>
    match lastDate with
    | some r => .ok r
    | none => .error "nenhuma linha com data encontrada na planilha"

/-! ## Legacy-layout migration (`_ensure_layout`) -/

/-- The per-row part of `_ensure_layout`'s migration loop: when the old
combined log column (column 12, 0-based index 11) holds a status-like
string, move it (stripped) into the new status column (column 15,
0-based index 14) if that is blank, and blank the old cell. -/
def migrateRow (row : SheetRow) : SheetRow :=
  match (row.getD 11 Cell.default).value with
  | .str t =>
    if looksLikeLog (.str t) then
      let row1 :=
        if isBlank (row.getD 14 Cell.default).value then
          setAt Cell.default (fun cell => { cell with value := .str (strTrim t) }) 14 row
        else row
      setAt Cell.default (fun cell => { cell with value := .blank }) 11 row1
    else row
  | _ => row

/-- Apply `migrateRow` to every row after the first `keep` rows. -/
def migrateRowsFrom (keep : Nat) : Sheet → Sheet
  | [] => []
  | r :: rs =>
    match keep with
    | 0 => migrateRow r :: migrateRowsFrom 0 rs
    | Nat.succ n => r :: migrateRowsFrom n rs

/-- The header rewrites of `_ensure_layout`: clear `L1:O1`, set the
row-2 headers of the four relocated columns. -/
def setHeaders (s : Sheet) : Sheet :=
  let s1 := sheetModify s 1 12 (fun cell => { cell with value := .blank })
  let s2 := sheetModify s1 1 13 (fun cell => { cell with value := .blank })
  let s3 := sheetModify s2 1 14 (fun cell => { cell with value := .blank })
  let s4 := sheetModify s3 1 15 (fun cell => { cell with value := .blank })
  let s5 := sheetModify s4 2 12 (fun cell => { cell with value := .str "TJLP" })
  let s6 := sheetModify s5 2 13 (fun cell => { cell with value := .str "SELIC" })
  let s7 := sheetModify s6 2 14 (fun cell => { cell with value := .str "CDI" })
  sheetModify s7 2 15 (fun cell => { cell with value := .str "Situação" })

/-- Source `_ensure_layout`: header rewrites, then the migration loop over all
data rows. -/
def ensureLayout (s : Sheet) : Sheet :=
  migrateRowsFrom 2 (setHeaders s)

/-! ## The ledger update engine (`update_xlsx_quotes_and_log`) -/

/-- The per-source write report (`written`): an insertion-ordered map
from source key to the tuple of fields actually written. -/
abbrev Written := List (String × List String)

/-- Source `_append_written`: append `field` to the source's tuple, creating
the entry when absent. -/
def appendWritten (w : Written) (source field : String) : Written :=
  if w.any (fun p => p.1 = source) then
    w.map (fun p => if p.1 = source then (p.1, p.2 ++ [field]) else p)
  else w ++ [(source, [field])]

/-- The state threaded through the update: the sheet plus the report. -/
structure UpdState where
  sheet : Sheet
  written : Written

/-- Source `if _set_cell(...): _append_written(source, field)`. -/
def writeCell (st : UpdState) (r c : Nat) (v : CellValue) (fmt : Option String)
    (ow : Bool) (source field : String) : UpdState :=
  let p := setCell st.sheet r c v fmt ow
  { sheet := p.1
    written := if p.2 then appendWritten st.written source field else st.written }

/-- The `if usd_brl:` block (storage.py lines 680–712, and the same
block inside `update_xlsx_usd_brl`): write the quantized buy into
column B under the overwrite rule; derive the sell from the
authoritative buy — the pre-existing parsed value when the buy was kept,
falling back to the fresh value when parsing fails — and write it into
column C under the same rule. -/
def stepUsdBrl (row : Nat) (q : Option ℚ) (spread : ℚ) (ow : Bool)
    (st : UpdState) : UpdState :=
  match q with
  | none => st
  | some v =>
    let compra := quantize4 v
    let existingBuy := (getCell st.sheet row 2).value
    let p := setCell st.sheet row 2 (.num compra) (some quoteNumberFormat) ow
    let w1 := if p.2 then appendWritten st.written "usd_brl" "compra" else st.written
    let buyForSale :=
      if ¬p.2 ∧ ¬isBlank existingBuy then
        match toDecimal existingBuy with
        | .ok (some parsed) => quantize4 parsed
        | _ => compra
      else compra
    let venda := quantize4 (qAdd buyForSale spread)
    let p2 := setCell p.1 row 3 (.num venda) (some quoteNumberFormat) ow
    { sheet := p2.1
      written := if p2.2 then appendWritten w1 "usd_brl" "venda" else w1 }

/-- A two-sided (buy, sell) block: the shape shared verbatim by the
`ptax_usd`, `turismo`, `ptax_eur` and `ptax_chf` blocks of
`update_xlsx_quotes_and_log` (and by the bodies of the per-source
updaters), differing only in the column pair and the source key. -/
def stepPair (row colBuy colSell : Nat) (source : String) (q : Option (ℚ × ℚ))
    (ow : Bool) (st : UpdState) : UpdState :=
  match q with
  | none => st
  | some bs =>
    let st1 := writeCell st row colBuy (.num (quantize4 bs.1))
      (some quoteNumberFormat) ow source "compra"
    writeCell st1 row colSell (.num (quantize4 bs.2))
      (some quoteNumberFormat) ow source "venda"

/-- A single interest-rate cell write (the TJLP / SELIC / CDI blocks),
parametrised by the value transform and number format.  The source
first feeds the argument through `_to_decimal`, which is the identity
on the `Decimal` arguments these blocks receive. -/
def stepRate (row col : Nat) (source field fmtS : String) (transform : ℚ → ℚ)
    (q : Option ℚ) (ow : Bool) (st : UpdState) : UpdState :=
  match q with
  | none => st
  | some v => writeCell st row col (.num (transform v)) (some fmtS) ow source field

/-- One interest-rate repeat step (storage.py lines 831–851):
`if _repeat_previous_value_if_blank(...): _append_written(source, field)`. -/
def stepRepeat (row col : Nat) (fmtS source field : String) (st : UpdState) : UpdState :=
  let p := repeatPreviousValueIfBlank st.sheet row col (some fmtS)
  { sheet := p.1
    written := if p.2 then appendWritten st.written source field else st.written }

/-- The composite status text: `"{STATUS} {timestamp}"`, with
`" - {detail}"` appended when a non-empty detail is given; an empty
status falls back to `"OK"`.  The timestamp is the caller-rendered
`dd/mm/yyyy HH:MM:SS` text. -/
def buildLogText (status timestamp : String) (detail : Option String) : String :=
  let statusText := strTrim (if status = "" then "OK" else status)
  match detail with
  | some d =>
    if d = "" then statusText ++ " " ++ timestamp
    else statusText ++ " " ++ timestamp ++ " - " ++ normalizeSpaces d
  | none => statusText ++ " " ++ timestamp

/-- The unconditional status/log write (column O, overwrite on). -/
def stepLog (row : Nat) (logText : String) (st : UpdState) : UpdState :=
  { sheet := (setCell st.sheet row logColumnIndex (.str logText) none true).1
    written := st.written }

/-- The arguments of `update_xlsx_quotes_and_log`.  Two-sided quotes
are (buy, sell) pairs; `timestamp` is the rendered local time of
`logged_at` (opaque text here). -/
structure QuotesArgs where
  targetDate : YMD
  usd_brl : Option ℚ := none
  ptax_usd : Option (ℚ × ℚ) := none
  turismo : Option (ℚ × ℚ) := none
  ptax_eur : Option (ℚ × ℚ) := none
  ptax_chf : Option (ℚ × ℚ) := none
  tjlp : Option ℚ := none
  selic : Option ℚ := none
  cdi : Option ℚ := none
  spread : ℚ := mkRat 20 10000
  overwriteQuotes : Bool := false
  status : String := "OK"
  detail : Option String := none
  timestamp : String := ""

/-- The `_apply` closure of `update_xlsx_quotes_and_log` (storage.py
lines 663–863): find-or-create the row, unconditionally rewrite its
date cell, process each present observation in source order, run the
three interest-rate repeat steps, write the status cell, and return the
updated sheet with the per-source report. -/
def applyQuotesAndLog (s : Sheet) (a : QuotesArgs) : Sheet × Written :=
  let pr := findOrCreateRowByDate s a.targetDate
  let row := pr.2
  let s1 := (setCell pr.1 row 1 (.dateV a.targetDate) (some dateNumberFormat) true).1
  let st0 : UpdState := ⟨s1, []⟩
  let st1 := stepUsdBrl row a.usd_brl a.spread a.overwriteQuotes st0
  let st2 := stepPair row 4 5 "ptax_usd" a.ptax_usd a.overwriteQuotes st1
  let st3 := stepPair row 6 7 "turismo" a.turismo a.overwriteQuotes st2
  let st4 := stepPair row 8 9 "ptax_eur" a.ptax_eur a.overwriteQuotes st3
  let st5 := stepPair row 10 11 "ptax_chf" a.ptax_chf a.overwriteQuotes st4
  let st6 := stepRate row 12 "tjlp" "valor" percentNumberFormat
    (fun v => quantize4 (qDivPow10 v 2)) a.tjlp a.overwriteQuotes st5
  let st7 := stepRate row 13 "selic" "selic" percentNumberFormat
    (fun v => quantize4 (qDivPow10 v 2)) a.selic a.overwriteQuotes st6
  let st8 := stepRate row 14 "selic" "cdi" cdiNumberFormat
    quantize10 a.cdi a.overwriteQuotes st7
  let st9 := stepRepeat row 12 percentNumberFormat "tjlp" "valor_repetido" st8
  let st10 := stepRepeat row 13 percentNumberFormat "selic" "selic_repetido" st9
  let st11 := stepRepeat row 14 cdiNumberFormat "selic" "cdi_repetido" st10
  let st12 := stepLog row (buildLogText a.status a.timestamp a.detail) st11
  (st12.sheet, st12.written)

/-- Source `update_xlsx_quotes_and_log` as run by `_load_and_save_workbook`:
legacy-layout migration on load, then the update closure.  (The
remaining passes of the pipeline — interest-format normalisation and
visual styling — touch only number formats and cosmetics, never cell
values.) -/
def updateXlsxQuotesAndLog (s : Sheet) (a : QuotesArgs) : Sheet × Written :=
  applyQuotesAndLog (ensureLayout s) a

/-- The `_apply` closure of `update_xlsx_usd_brl` (storage.py lines
421–458): the same find-or-create + date write + official buy/sell
block, without a write report. -/
def applyUsdBrl (s : Sheet) (value spread : ℚ) (targetDate : YMD) (ow : Bool) : Sheet :=
  let pr := findOrCreateRowByDate s targetDate
  let row := pr.2
  let s1 := (setCell pr.1 row 1 (.dateV targetDate) (some dateNumberFormat) true).1
  (stepUsdBrl row (some value) spread ow ⟨s1, []⟩).sheet

/-- The `_apply` closure of `update_xlsx_dolar_turismo`: columns F/G. -/
def applyDolarTurismo (s : Sheet) (buy sell : ℚ) (targetDate : YMD) (ow : Bool) : Sheet :=
  let pr := findOrCreateRowByDate s targetDate
  (stepPair pr.2 6 7 "turismo" (some (buy, sell)) ow ⟨pr.1, []⟩).sheet

/-- The `_apply` closure of `update_xlsx_dolar_ptax`: columns D/E. -/
def applyDolarPtax (s : Sheet) (buy sell : ℚ) (targetDate : YMD) (ow : Bool) : Sheet :=
  let pr := findOrCreateRowByDate s targetDate
  (stepPair pr.2 4 5 "ptax_usd" (some (buy, sell)) ow ⟨pr.1, []⟩).sheet

/-- The `_apply` closure of `update_xlsx_euro_ptax`: columns H/I. -/
def applyEuroPtax (s : Sheet) (buy sell : ℚ) (targetDate : YMD) (ow : Bool) : Sheet :=
  let pr := findOrCreateRowByDate s targetDate
  (stepPair pr.2 8 9 "ptax_eur" (some (buy, sell)) ow ⟨pr.1, []⟩).sheet

/-- The `_apply` closure of `update_xlsx_chf_ptax`: columns J/K. -/
def applyChfPtax (s : Sheet) (buy sell : ℚ) (targetDate : YMD) (ow : Bool) : Sheet :=
  let pr := findOrCreateRowByDate s targetDate
  (stepPair pr.2 10 11 "ptax_chf" (some (buy, sell)) ow ⟨pr.1, []⟩).sheet

/-- Source `update_xlsx_usd_brl` including the on-load migration. -/
def updateXlsxUsdBrl (s : Sheet) (value spread : ℚ) (targetDate : YMD) (ow : Bool) : Sheet :=
  applyUsdBrl (ensureLayout s) value spread targetDate ow

/-- Source `update_xlsx_dolar_turismo` including the on-load migration. -/
def updateXlsxDolarTurismo (s : Sheet) (buy sell : ℚ) (targetDate : YMD) (ow : Bool) : Sheet :=
  applyDolarTurismo (ensureLayout s) buy sell targetDate ow

/-- Source `update_xlsx_dolar_ptax` including the on-load migration. -/
def updateXlsxDolarPtax (s : Sheet) (buy sell : ℚ) (targetDate : YMD) (ow : Bool) : Sheet :=
  applyDolarPtax (ensureLayout s) buy sell targetDate ow

/-- Source `update_xlsx_euro_ptax` including the on-load migration. -/
def updateXlsxEuroPtax (s : Sheet) (buy sell : ℚ) (targetDate : YMD) (ow : Bool) : Sheet :=
  applyEuroPtax (ensureLayout s) buy sell targetDate ow

/-- Source `update_xlsx_chf_ptax` including the on-load migration. -/
def updateXlsxChfPtax (s : Sheet) (buy sell : ℚ) (targetDate : YMD) (ow : Bool) : Sheet :=
  applyChfPtax (ensureLayout s) buy sell targetDate ow

/-! ## CSV projection (`update_csv_from_xlsx`, storage.py lines 910–943)

The functions below model the read-merge-write step on the decoded CSV
rows.  `dateValue` and `dataRow` stand for the `date_value` / `data_row`
strings formatted from the ledger's last-updated row at lines 898–908
(`data_row[0] == date_value`, a `dd/mm/yyyy` text). -/

/-- Source `_DATE_PATTERN`: the string is exactly `\d{2}/\d{2}/\d{4}`. -/
def isDateShaped (s : String) : Bool :=
  match s.toList with
  | [a, b, s1, c, d, s2, e, f, g, h] =>
    a.isDigit && b.isDigit && s1 = '/' && c.isDigit && d.isDigit && s2 = '/' &&
      e.isDigit && f.isDigit && g.isDigit && h.isDigit
  | _ => false

/-- Source `_DEFAULT_CSV_HEADER`. -/
def defaultCsvHeader : List String :=
  ["Data", "Dolar Oficial Compra", "Dolar Oficial Venda", "Dolar PTAX Compra",
   "Dolar PTAX Venda", "Dolar Turismo Compra", "Dolar Turismo Venda",
   "Euro PTAX Compra", "Euro PTAX Venda", "CHF PTAX Compra", "CHF PTAX Venda",
   "TJLP", "SELIC", "CDI", "Situacao"]

/-- The replace loop of `update_csv_from_xlsx`: substitute `dataRow`
for every data row whose first column equals `dateValue`, reporting
whether any replacement happened. -/
def replaceRows (dateValue : String) (dataRow : List String) :
    List (List String) → List (List String) × Bool
  | [] => ([], false)
  | r :: rs =>
    let p := replaceRows dateValue dataRow rs
    if r.headD "" = dateValue then (dataRow :: p.1, true) else (r :: p.1, p.2)

/-- The row-merge step of `update_csv_from_xlsx` (lines 923–939): keep
only the rows shaped like data rows (non-empty, `dd/mm/yyyy` first
column), replace the row(s) for `dateValue` or append `dataRow`, and
put the canonical default header on top. -/
def updateCsvRows (existing : List (List String)) (dateValue : String)
    (dataRow : List String) : List (List String) :=
  let dataRows := existing.filter (fun r => !r.isEmpty && isDateShaped (r.headD ""))
  let p := replaceRows dateValue dataRow dataRows
  let newDataRows := if p.2 then p.1 else p.1 ++ [dataRow]
  defaultCsvHeader :: newDataRows

/-! ## Fetch-window admission policy (`_select_fetches`, main.py lines 472–552) -/

/-- Python tuple comparison `(h1, m1) <= (h2, m2)`. -/
def hmLeB (h1 m1 h2 m2 : Nat) : Bool :=
  h1 < h2 || (h1 = h2 && m1 ≤ m2)

/-- Skip reason for morning-group sources outside the window. -/
def reasonAfterMorning : String := "fora do horario (apos 08:30)"

/-- Skip reason for PTAX sources outside the window. -/
def reasonBeforePtax : String := "fora do horario (antes de 13:10)"

/-- Skip reason for a source already filled for today. -/
def reasonFilled : String := "ja preenchido na data de hoje"

/-- One iteration of a `_select_fetches` group loop: out of window ⇒
skip with the group reason; filled today ⇒ skip with the filled reason;
otherwise select. -/
def selStep (filled : String → Bool) (allow : Bool) (reason : String)
    (acc : List String × List (String × String)) (key : String) :
    List String × List (String × String) :=
  if ¬allow then (acc.1, acc.2 ++ [(key, reason)])
  else if filled key then (acc.1, acc.2 ++ [(key, reasonFilled)])
  else (acc.1 ++ [key], acc.2)

/-- First morning loop: `("usd_brl", "turismo")`. -/
def morningQuoteKeys : List String := ["usd_brl", "turismo"]

/-- PTAX loop: `("ptax_usd", "ptax_eur", "ptax_chf")`. -/
def ptaxKeys : List String := ["ptax_usd", "ptax_eur", "ptax_chf"]

/-- Second morning loop: `("tjlp", "selic")`. -/
def interestKeys : List String := ["tjlp", "selic"]

/-- All morning-group sources (both morning loops). -/
def morningKeys : List String := morningQuoteKeys ++ interestKeys

/-- The pure core of `_select_fetches`: from the local time of day and
the per-source filled map, the selected source keys (in source order)
and the skipped sources with their reasons.
`allow_morning_quotes = (h, m) <= (8, 30)`;
`allow_ptax = (h, m) >= (13, 10)`. -/
def selectFetches (h m : Nat) (filled : String → Bool) :
    List String × List (String × String) :=
  let allowMorning := hmLeB h m 8 30
  let allowPtax := hmLeB 13 10 h m
  let acc1 := morningQuoteKeys.foldl (selStep filled allowMorning reasonAfterMorning) ([], [])
  let acc2 := ptaxKeys.foldl (selStep filled allowPtax reasonBeforePtax) acc1
  interestKeys.foldl (selStep filled allowMorning reasonAfterMorning) acc2

/-! ## CDI derivation (`calculate_cdi_daily_percent`, juros.py lines 194–215) -/

/-- Source `_CDI_SPREAD = Decimal("0.10")`, the default `annual_spread`. -/
def cdiDefaultSpread : ℚ := 10 / 100

/-- The quantity `future_value / 100 = (100 + selic_annual_percent - annual_spread) / 100`,
the base whose 252nd root the source takes. -/
def cdiFutureValueOver100 (selicAnnualPercent annualSpread : ℚ) : ℚ :=
  (100 + selicAnnualPercent - annualSpread) / 100

/-- Asserts that `d` is the ROUND_HALF_UP quantization to 10 fractional digits of
`100 * (x^(1/252) - 1)` — the value `calculate_cdi_daily_percent`
computes (for positive `x` and `d`).  Stated without real roots: since
`t ↦ t^252` is strictly monotone on positives,
`d - 1/(2·10^10) ≤ 100·(x^(1/252) − 1) < d + 1/(2·10^10)` is equivalent
to the rational bounds below. -/
def roundsToCdiDaily (x d : ℚ) : Prop :=
  (1 + (d - 1 / (2 * 10 ^ 10)) / 100) ^ 252 ≤ x ∧
    x < (1 + (d + 1 / (2 * 10 ^ 10)) / 100) ^ 252

/-! ## Supporting lemmas: scans over row ranges -/

theorem lastSatisfying_some (p : Nat → Bool) (a : Nat) :
    ∀ (n r : Nat),
      (((List.range' a n).filter p).getLast? = some r ↔
        (p r = true ∧ a ≤ r ∧ r < a + n ∧ ∀ j, r < j → j < a + n → p j = false)) := by
  intro n
  induction n with
  | zero =>
    intro r
    simp only [List.range', List.filter_nil, List.getLast?_nil]
    constructor
    · intro h; cases h
    · rintro ⟨-, h1, h2, -⟩; omega
  | succ n ih =>
    intro r
    rw [List.range'_1_concat, List.filter_append]
    by_cases hp : p (a + n)
    · have hone : List.filter p [a + n] = [a + n] := by simp [hp]
      rw [hone, List.getLast?_concat]
      constructor
      · rintro h
        have hr : r = a + n := by
          have := Option.some.inj h; omega
        subst hr
        exact ⟨hp, by omega, by omega, fun j hj1 hj2 => by omega⟩
      · rintro ⟨hpr, h1, h2, h3⟩
        have hr : r = a + n := by
          by_contra hne
          have hlt : r < a + n := by omega
          have := h3 (a + n) (by omega) (by omega)
          rw [hp] at this
          cases this
        subst hr; rfl
    · have hnil : List.filter p [a + n] = [] := by simp [hp]
      rw [hnil, List.append_nil, ih r]
      constructor
      · rintro ⟨hpr, h1, h2, h3⟩
        refine ⟨hpr, h1, by omega, fun j hj1 hj2 => ?_⟩
        by_cases hje : j = a + n
        · subst hje; simpa using hp
        · exact h3 j hj1 (by omega)
      · rintro ⟨hpr, h1, h2, h3⟩
        have h2' : r < a + n := by
          by_contra hge
          have : r = a + n := by omega
          subst this
          simp [hp] at hpr
        exact ⟨hpr, h1, h2', fun j hj1 hj2 => h3 j hj1 (by omega)⟩

theorem lastSatisfying_none (p : Nat → Bool) (a n : Nat) :
    ((List.range' a n).filter p).getLast? = none ↔
      ∀ j, a ≤ j → j < a + n → p j = false := by
  rw [List.getLast?_eq_none_iff, List.filter_eq_nil_iff]
  constructor
  · intro h j h1 h2
    by_contra hc
    exact h j (List.mem_range'_1.mpr ⟨h1, h2⟩) (by simpa using hc)
  · intro h j hj
    have := List.mem_range'_1.mp hj
    simp [h j this.1 this.2]

theorem find?_reverse_range' (p : Nat → Bool) (a : Nat) :
    ∀ (n r : Nat),
      ((List.range' a n).reverse.find? p = some r ↔
        (p r = true ∧ a ≤ r ∧ r < a + n ∧ ∀ j, r < j → j < a + n → p j = false)) := by
  intro n
  induction n with
  | zero =>
    intro r
    simp only [List.range', List.reverse_nil, List.find?_nil]
    constructor
    · intro h; cases h
    · rintro ⟨-, h1, h2, -⟩; omega
  | succ n ih =>
    intro r
    rw [List.range'_1_concat, List.reverse_append]
    simp only [List.reverse_cons, List.reverse_nil, List.nil_append, List.cons_append,
      List.find?_cons]
    by_cases hp : p (a + n)
    · rw [hp]
      simp only [Option.some.injEq]
      constructor
      · intro h
        subst h
        exact ⟨hp, by omega, by omega, fun j hj1 hj2 => by omega⟩
      · rintro ⟨hpr, h1, h2, h3⟩
        by_contra hne
        have hlt : r < a + n := by
          rcases Nat.lt_or_ge r (a + n) with h | h
          · exact h
          · exfalso; exact hne (by omega)
        have := h3 (a + n) (by omega) (by omega)
        rw [hp] at this
        cases this
    · rw [Bool.not_eq_true] at hp
      rw [hp, ih r]
      constructor
      · rintro ⟨hpr, h1, h2, h3⟩
        refine ⟨hpr, h1, by omega, fun j hj1 hj2 => ?_⟩
        by_cases hje : j = a + n
        · subst hje; exact hp
        · exact h3 j hj1 (by omega)
      · rintro ⟨hpr, h1, h2, h3⟩
        have h2' : r < a + n := by
          by_contra hge
          have : r = a + n := by omega
          subst this
          rw [hp] at hpr
          cases hpr
        exact ⟨hpr, h1, h2', fun j hj1 hj2 => h3 j hj1 (by omega)⟩

theorem find?_reverse_range'_none (p : Nat → Bool) (a n : Nat) :
    ((List.range' a n).reverse.find? p = none ↔
      ∀ j, a ≤ j → j < a + n → p j = false) := by
  rw [List.find?_eq_none]
  constructor
  · intro h j h1 h2
    by_contra hc
    exact absurd (by simpa using hc) (h j (by simp [List.mem_range'_1]; omega))
  · intro h j hj
    rw [List.mem_reverse, List.mem_range'_1] at hj
    simp [h j hj.1 hj.2]


/-! ## Supporting lemmas: write primitives -/


theorem setCell_snd (s : Sheet) (r c : Nat) (v : CellValue) (fmt : Option String)
    (ow : Bool) : (setCell s r c v fmt ow).2 = (ow || isBlank (getCell s r c).value) := by
  unfold setCell
  split_ifs with h
  · obtain ⟨h1, h2⟩ := h
    simp at h1 h2
    simp [h1, h2]
  · rcases Decidable.not_and_iff_or_not.mp h with h1 | h1 <;> simp at h1 <;> simp [h1]

theorem getCell_setCell_other (s : Sheet) (r c : Nat) (v : CellValue)
    (fmt : Option String) (ow : Bool) (r' c' : Nat) (hr : 1 ≤ r) (hc : 1 ≤ c)
    (hr' : 1 ≤ r') (hc' : 1 ≤ c') (hne : ¬(r = r' ∧ c = c')) :
    getCell (setCell s r c v fmt ow).1 r' c' = getCell s r' c' := by
  unfold setCell
  split_ifs with h
  · rfl
  · cases fmt with
    | none =>
      simp only
      rw [getCell_sheetModify _ _ _ _ _ _ hr hc hr' hc', if_neg hne]
    | some f =>
      simp only
      rw [getCell_sheetModify _ _ _ _ _ _ hr hc hr' hc', if_neg hne,
        getCell_sheetModify _ _ _ _ _ _ hr hc hr' hc', if_neg hne]

theorem getCell_setCell_self (s : Sheet) (r c : Nat) (v : CellValue)
    (fmt : Option String) (ow : Bool) (hr : 1 ≤ r) (hc : 1 ≤ c)
    (hw : (setCell s r c v fmt ow).2 = true) :
    (getCell (setCell s r c v fmt ow).1 r c).value = v := by
  unfold setCell at hw ⊢
  split_ifs with h
  · rw [if_pos h] at hw; cases hw
  · cases fmt with
    | none =>
      simp only
      rw [getCell_sheetModify _ _ _ _ _ _ hr hc hr hc, if_pos ⟨rfl, rfl⟩]
    | some f =>
      simp only
      rw [getCell_sheetModify _ _ _ _ _ _ hr hc hr hc, if_pos ⟨rfl, rfl⟩,
        getCell_sheetModify _ _ _ _ _ _ hr hc hr hc, if_pos ⟨rfl, rfl⟩]

theorem setCell_false_preserves (s : Sheet) (r c : Nat) (v : CellValue)
    (fmt : Option String) (r' c' : Nat) (hr : 1 ≤ r) (hc : 1 ≤ c)
    (hr' : 1 ≤ r') (hc' : 1 ≤ c')
    (hnb : isBlank (getCell s r' c').value = false) :
    getCell (setCell s r c v fmt false).1 r' c' = getCell s r' c' := by
  by_cases heq : r = r' ∧ c = c'
  · obtain ⟨h1, h2⟩ := heq
    subst h1; subst h2
    unfold setCell
    rw [if_pos (by simp [hnb])]
  · exact getCell_setCell_other s r c v fmt false r' c' hr hc hr' hc' heq



theorem getCell_repeatPrev_other (s : Sheet) (row col : Nat) (fmt : Option String)
    (r' c' : Nat) (hr : 1 ≤ row) (hc : 1 ≤ col) (hr' : 1 ≤ r') (hc' : 1 ≤ c')
    (hne : ¬(row = r' ∧ col = c')) :
    getCell (repeatPreviousValueIfBlank s row col fmt).1 r' c' = getCell s r' c' := by
  unfold repeatPreviousValueIfBlank
  by_cases h : isBlank (getCell s row col).value
  · rw [if_neg (by simp [h])]
    cases hf : findPreviousNonBlankValue s row col with
    | none => rfl
    | some v =>
      simp only
      split_ifs with h2
      · rfl
      · cases fmt with
        | none =>
          simp only
          rw [getCell_sheetModify _ _ _ _ _ _ hr hc hr' hc', if_neg hne]
        | some f =>
          simp only
          rw [getCell_sheetModify _ _ _ _ _ _ hr hc hr' hc', if_neg hne,
            getCell_sheetModify _ _ _ _ _ _ hr hc hr' hc', if_neg hne]
  · rw [if_pos (by simp [h])]

theorem repeatPrev_preserves_nonblank (s : Sheet) (row col : Nat) (fmt : Option String)
    (r' c' : Nat) (hr : 1 ≤ row) (hc : 1 ≤ col) (hr' : 1 ≤ r') (hc' : 1 ≤ c')
    (hnb : isBlank (getCell s r' c').value = false) :
    getCell (repeatPreviousValueIfBlank s row col fmt).1 r' c' = getCell s r' c' := by
  by_cases heq : row = r' ∧ col = c'
  · obtain ⟨h1, h2⟩ := heq
    subst h1; subst h2
    unfold repeatPreviousValueIfBlank
    rw [if_pos (by simp [hnb])]
  · exact getCell_repeatPrev_other s row col fmt r' c' hr hc hr' hc' heq

theorem findOrCreate_row_ge (s : Sheet) (d : YMD) :
    3 ≤ (findOrCreateRowByDate s d).2 := by
  unfold findOrCreateRowByDate
  cases hf : findRowByDate s d with
  | some r =>
    simp only
    have hmem := List.mem_of_find?_eq_some (by simpa [findRowByDate] using hf)
    have := List.mem_range'_1.mp (by simpa [dataRowIndices] using hmem)
    omega
  | none =>
    simp only
    cases hl : findLastDateRow s with
    | none => simp
    | some r =>
      simp only [Option.getD_some]
      have hmem := List.mem_of_find?_eq_some (by simpa [findLastDateRow] using hl)
      have := List.mem_range'_1.mp (by
        simpa [dataRowIndices] using List.mem_reverse.mp hmem)
      omega

theorem getCell_findOrCreate_other (s : Sheet) (d : YMD) (r' c' : Nat)
    (hr' : 1 ≤ r') (hc' : 1 ≤ c')
    (hne : ¬(r' = (findOrCreateRowByDate s d).2 ∧ c' = 1)) :
    getCell (findOrCreateRowByDate s d).1 r' c' = getCell s r' c' := by
  unfold findOrCreateRowByDate at hne ⊢
  cases hf : findRowByDate s d with
  | some r => rfl
  | none =>
    rw [hf] at hne
    simp only at hne ⊢
    have hrow : 1 ≤ (findLastDateRow s).getD 2 + 1 := by omega
    rw [getCell_sheetModify _ _ _ _ _ _ hrow le_rfl hr' hc',
      getCell_sheetModify _ _ _ _ _ _ hrow le_rfl hr' hc']
    rw [if_neg (fun hand => hne ⟨hand.1.symm, hand.2.symm⟩),
      if_neg (fun hand => hne ⟨hand.1.symm, hand.2.symm⟩)]



/-! ## Claims -/


theorem selStep_foldl_mem_sel (filled : String → Bool) (allow : Bool) (reason : String) :
    ∀ (g : List String) (acc : List String × List (String × String)) (k : String),
      (k ∈ (g.foldl (selStep filled allow reason) acc).1 ↔
        k ∈ acc.1 ∨ (k ∈ g ∧ allow = true ∧ filled k = false)) := by
  intro g
  induction g with
  | nil => simp
  | cons x xs ih =>
    intro acc k
    rw [List.foldl_cons, ih]
    unfold selStep
    by_cases ha : allow
    · rw [if_neg (by simp [ha])]
      by_cases hf : filled x
      · rw [if_pos hf]
        simp only [List.mem_cons]
        constructor
        · rintro (h | ⟨hk, h2, h3⟩)
          · exact Or.inl h
          · exact Or.inr ⟨Or.inr hk, h2, h3⟩
        · rintro (h | ⟨hk | hk, h2, h3⟩)
          · exact Or.inl h
          · subst hk; rw [hf] at h3; cases h3
          · exact Or.inr ⟨hk, h2, h3⟩
      · rw [if_neg hf]
        simp only [List.mem_append, List.mem_cons, List.mem_singleton,
          List.not_mem_nil, or_false]
        constructor
        · rintro ((h | h) | ⟨hk, h2, h3⟩)
          · exact Or.inl h
          · subst h; exact Or.inr ⟨Or.inl rfl, ha, by simpa using hf⟩
          · exact Or.inr ⟨Or.inr hk, h2, h3⟩
        · rintro (h | ⟨hk | hk, h2, h3⟩)
          · exact Or.inl (Or.inl h)
          · subst hk; exact Or.inl (Or.inr rfl)
          · exact Or.inr ⟨hk, h2, h3⟩
    · rw [if_pos (by simp [ha])]
      simp only [List.mem_cons]
      rw [Bool.not_eq_true] at ha
      constructor
      · rintro (h | ⟨hk, h2, h3⟩)
        · exact Or.inl h
        · exact Or.inr ⟨Or.inr hk, h2, h3⟩
      · rintro (h | ⟨hk | hk, h2, h3⟩)
        · exact Or.inl h
        · rw [ha] at h2; cases h2
        · exact Or.inr ⟨hk, h2, h3⟩

theorem selStep_foldl_mem_skip (filled : String → Bool) (allow : Bool) (reason : String) :
    ∀ (g : List String) (acc : List String × List (String × String)) (k : String)
      (r : String),
      ((k, r) ∈ (g.foldl (selStep filled allow reason) acc).2 ↔
        (k, r) ∈ acc.2 ∨
          (k ∈ g ∧ ((allow = false ∧ r = reason) ∨
            (allow = true ∧ filled k = true ∧ r = reasonFilled)))) := by
  intro g
  induction g with
  | nil => simp
  | cons x xs ih =>
    intro acc k r
    rw [List.foldl_cons, ih]
    unfold selStep
    by_cases ha : allow
    · rw [if_neg (by simp [ha])]
      by_cases hf : filled x
      · rw [if_pos hf]
        simp only [List.mem_append, List.mem_cons, List.mem_singleton,
          List.not_mem_nil, or_false, Prod.mk.injEq]
        constructor
        · rintro ((h | ⟨hk, hr⟩) | ⟨hk, hcond⟩)
          · exact Or.inl h
          · subst hk; subst hr; exact Or.inr ⟨Or.inl rfl, Or.inr ⟨ha, hf, rfl⟩⟩
          · exact Or.inr ⟨Or.inr hk, hcond⟩
        · rintro (h | ⟨hk | hk, (⟨h1, h2⟩ | ⟨h1, h2, h3⟩)⟩)
          · exact Or.inl (Or.inl h)
          · rw [ha] at h1; cases h1
          · subst hk; exact Or.inl (Or.inr ⟨rfl, h3⟩)
          · exact Or.inr ⟨hk, Or.inl ⟨h1, h2⟩⟩
          · exact Or.inr ⟨hk, Or.inr ⟨h1, h2, h3⟩⟩
      · rw [if_neg hf]
        simp only [List.mem_cons]
        constructor
        · rintro (h | ⟨hk, hcond⟩)
          · exact Or.inl h
          · exact Or.inr ⟨Or.inr hk, hcond⟩
        · rintro (h | ⟨hk | hk, (⟨h1, h2⟩ | ⟨h1, h2, h3⟩)⟩)
          · exact Or.inl h
          · rw [ha] at h1; cases h1
          · subst hk; exact absurd h2 hf
          · exact Or.inr ⟨hk, Or.inl ⟨h1, h2⟩⟩
          · exact Or.inr ⟨hk, Or.inr ⟨h1, h2, h3⟩⟩
    · rw [if_pos (by simp [ha])]
      rw [Bool.not_eq_true] at ha
      simp only [List.mem_append, List.mem_cons, List.mem_singleton,
        List.not_mem_nil, or_false, Prod.mk.injEq]
      constructor
      · rintro ((h | ⟨hk, hr⟩) | ⟨hk, hcond⟩)
        · exact Or.inl h
        · subst hk; subst hr; exact Or.inr ⟨Or.inl rfl, Or.inl ⟨ha, rfl⟩⟩
        · exact Or.inr ⟨Or.inr hk, hcond⟩
      · rintro (h | ⟨hk | hk, (⟨h1, h2⟩ | ⟨h1, h2, h3⟩)⟩)
        · exact Or.inl (Or.inl h)
        · subst hk; exact Or.inl (Or.inr ⟨rfl, h2⟩)
        · rw [ha] at h1; cases h1
        · exact Or.inr ⟨hk, Or.inl ⟨h1, h2⟩⟩
        · exact Or.inr ⟨hk, Or.inr ⟨h1, h2, h3⟩⟩

theorem selectFetches_sel_iff (h m : Nat) (filled : String → Bool) (k : String) :
    k ∈ (selectFetches h m filled).1 ↔
      ((k ∈ morningQuoteKeys ∨ k ∈ interestKeys) ∧ hmLeB h m 8 30 = true ∧
          filled k = false) ∨
        (k ∈ ptaxKeys ∧ hmLeB 13 10 h m = true ∧ filled k = false) := by
  unfold selectFetches
  rw [selStep_foldl_mem_sel, selStep_foldl_mem_sel, selStep_foldl_mem_sel]
  simp only [List.not_mem_nil, false_or]
  tauto

theorem selectFetches_skip_iff (h m : Nat) (filled : String → Bool) (k r : String) :
    (k, r) ∈ (selectFetches h m filled).2 ↔
      ((k ∈ morningQuoteKeys ∨ k ∈ interestKeys) ∧
          ((hmLeB h m 8 30 = false ∧ r = reasonAfterMorning) ∨
            (hmLeB h m 8 30 = true ∧ filled k = true ∧ r = reasonFilled))) ∨
        (k ∈ ptaxKeys ∧
          ((hmLeB 13 10 h m = false ∧ r = reasonBeforePtax) ∨
            (hmLeB 13 10 h m = true ∧ filled k = true ∧ r = reasonFilled))) := by
  unfold selectFetches
  rw [selStep_foldl_mem_skip, selStep_foldl_mem_skip, selStep_foldl_mem_skip]
  simp only [List.not_mem_nil, false_or]
  tauto

/-- C3.  The fetch admission policy: a morning-group source
(`usd_brl`, `turismo`, `tjlp`, `selic`) is selected exactly when the
local time of day is `≤ 08:30` (tuple order, boundary inclusive) and
the source is not yet filled for today; a PTAX source is selected
exactly when the time is `≥ 13:10` and it is not filled; a non-selected
source is skipped with the matching reason (out-of-window text per
group, or "ja preenchido na data de hoje"); both boundary instants lie
inside their windows; and strictly between the windows the selection is
empty (the function is total — no error is possible). -/
theorem selectFetches_admission (h m : Nat) (filled : String → Bool) :
    (∀ k ∈ morningKeys,
        (k ∈ (selectFetches h m filled).1 ↔
          hmLeB h m 8 30 = true ∧ filled k = false)) ∧
      (∀ k ∈ ptaxKeys,
        (k ∈ (selectFetches h m filled).1 ↔
          hmLeB 13 10 h m = true ∧ filled k = false)) ∧
      (∀ k ∈ morningKeys, hmLeB h m 8 30 = false →
        (k, reasonAfterMorning) ∈ (selectFetches h m filled).2) ∧
      (∀ k ∈ morningKeys, hmLeB h m 8 30 = true → filled k = true →
        (k, reasonFilled) ∈ (selectFetches h m filled).2) ∧
      (∀ k ∈ ptaxKeys, hmLeB 13 10 h m = false →
        (k, reasonBeforePtax) ∈ (selectFetches h m filled).2) ∧
      (∀ k ∈ ptaxKeys, hmLeB 13 10 h m = true → filled k = true →
        (k, reasonFilled) ∈ (selectFetches h m filled).2) ∧
      (hmLeB 8 30 8 30 = true ∧ hmLeB 13 10 13 10 = true) ∧
      (hmLeB h m 8 30 = false → hmLeB 13 10 h m = false →
        (selectFetches h m filled).1 = []) := by
  have hdisj : ∀ k : String, k ∈ morningKeys → k ∈ ptaxKeys → False := by
    intro k hk1 hk2
    fin_cases hk1 <;> simp [ptaxKeys] at hk2
  refine ⟨?_, ?_, ?_, ?_, ?_, ?_, ⟨by decide, by decide⟩, ?_⟩
  · intro k hk
    rw [selectFetches_sel_iff]
    have hm : k ∈ morningQuoteKeys ∨ k ∈ interestKeys := by
      simpa [morningKeys, List.mem_append] using hk
    have hnp : ¬k ∈ ptaxKeys := fun hp => hdisj k hk hp
    tauto
  · intro k hk
    rw [selectFetches_sel_iff]
    have hnm : ¬(k ∈ morningQuoteKeys ∨ k ∈ interestKeys) := by
      intro hm
      exact hdisj k (by simpa [morningKeys, List.mem_append] using hm) hk
    tauto
  · intro k hk hw
    rw [selectFetches_skip_iff]
    have hm : k ∈ morningQuoteKeys ∨ k ∈ interestKeys := by
      simpa [morningKeys, List.mem_append] using hk
    tauto
  · intro k hk hw hf
    rw [selectFetches_skip_iff]
    have hm : k ∈ morningQuoteKeys ∨ k ∈ interestKeys := by
      simpa [morningKeys, List.mem_append] using hk
    tauto
  · intro k hk hw
    rw [selectFetches_skip_iff]
    tauto
  · intro k hk hw hf
    rw [selectFetches_skip_iff]
    tauto
  · intro h1 h2
    rw [List.eq_nil_iff_forall_not_mem]
    intro k hk
    rw [selectFetches_sel_iff] at hk
    rcases hk with ⟨-, hw, -⟩ | ⟨-, hw, -⟩
    · rw [h1] at hw; cases hw
    · rw [h2] at hw; cases hw

/-- Witness for C3 at the spec's own test points: at 07:00 with nothing
filled the morning group is selected and PTAX skipped; at 14:31 with
PTAX-USD/EUR filled only PTAX-CHF is selected; at 09:00 nothing is
selected. -/
theorem selectFetches_admission_witness :
    "usd_brl" ∈ (selectFetches 7 0 (fun _ => false)).1 ∧
      ("ptax_usd", reasonBeforePtax) ∈ (selectFetches 7 0 (fun _ => false)).2 ∧
      "ptax_chf" ∈
        (selectFetches 14 31 (fun k => k = "ptax_usd" || k = "ptax_eur")).1 ∧
      ("ptax_usd", reasonFilled) ∈
        (selectFetches 14 31 (fun k => k = "ptax_usd" || k = "ptax_eur")).2 ∧
      (selectFetches 9 0 (fun _ => false)).1 = [] := by
  refine ⟨?_, ?_, ?_, ?_, ?_⟩
  · exact ((selectFetches_admission 7 0 (fun _ => false)).1 "usd_brl" (by decide)).mpr
      ⟨by decide, rfl⟩
  · exact (selectFetches_admission 7 0 (fun _ => false)).2.2.2.2.1 "ptax_usd" (by decide)
      (by decide)
  · exact ((selectFetches_admission 14 31 _).2.1 "ptax_chf" (by decide)).mpr
      ⟨by decide, by decide⟩
  · exact (selectFetches_admission 14 31 _).2.2.2.2.2.1 "ptax_usd" (by decide) (by decide)
      (by decide)
  · exact (selectFetches_admission 9 0 (fun _ => false)).2.2.2.2.2.2.2 (by decide)
      (by decide)


/-- C9.  `calculate_cdi_daily_percent(Decimal("15.00"))` with the
default 0.10 spread returns exactly `Decimal("0.0551310642")`: the
half-up 10-digit rounding of `100·((114.90/100)^(1/252) − 1)`, here
certified by the equivalent exact rational bounds of
`roundsToCdiDaily` (the function computes the root at 34 significant
digits, far below the `≈ 4·10⁻¹²` margin these bounds establish). -/
theorem cdiDailyPercent_literal :
    roundsToCdiDaily (cdiFutureValueOver100 15 cdiDefaultSpread)
      (551310642 / 10 ^ 10) := by
  constructor <;>
    norm_num [roundsToCdiDaily, cdiFutureValueOver100, cdiDefaultSpread]



/-- Amended C5: full characterization of `_find_last_updated_row`. -/
theorem findLastUpdatedRow_characterization (s : Sheet) :
    (∀ r, findLastUpdatedRow s = .ok r →
      3 ≤ r ∧ r ≤ s.length ∧
        ((truthy (getCell s r logColumnIndex).value = true ∧
            (∀ j, r < j → j ≤ s.length →
              truthy (getCell s j logColumnIndex).value = false)) ∨
          ((∀ j, 3 ≤ j → j ≤ s.length →
              truthy (getCell s j logColumnIndex).value = false) ∧
            (coerceDate (getCell s r 1).value).isSome = true ∧
            (∀ j, r < j → j ≤ s.length →
              (coerceDate (getCell s j 1).value).isSome = false)))) ∧
      (findLastUpdatedRow s = .error "nenhuma linha com data encontrada na planilha" ↔
        ((∀ j, 3 ≤ j → j ≤ s.length →
            truthy (getCell s j logColumnIndex).value = false) ∧
          (∀ j, 3 ≤ j → j ≤ s.length →
            (coerceDate (getCell s j 1).value).isSome = false))) := by
  have hbound : ∀ j : Nat, 3 ≤ j → (j < 3 + (s.length - 2) ↔ j ≤ s.length) := by
    intro j hj; omega
  constructor
  · intro r hok
    unfold findLastUpdatedRow at hok
    cases hL : ((dataRowIndices s).filter
        (fun r => truthy (getCell s r logColumnIndex).value)).getLast? with
    | some rl =>
      rw [hL] at hok
      simp only [Except.ok.injEq] at hok
      subst hok
      obtain ⟨h1, h2, h3, h4⟩ := (lastSatisfying_some _ 3 (s.length - 2) rl).mp hL
      refine ⟨h2, by omega, Or.inl ⟨h1, fun j hj1 hj2 => h4 j hj1 (by omega)⟩⟩
    | none =>
      rw [hL] at hok
      have hnone := (lastSatisfying_none _ 3 (s.length - 2)).mp hL
      cases hD : ((dataRowIndices s).filter
          (fun r => (coerceDate (getCell s r 1).value).isSome)).getLast? with
      | some rd =>
        rw [hD] at hok
        simp only [Except.ok.injEq] at hok
        subst hok
        obtain ⟨h1, h2, h3, h4⟩ := (lastSatisfying_some _ 3 (s.length - 2) rd).mp hD
        refine ⟨h2, by omega,
          Or.inr ⟨fun j hj1 hj2 => hnone j hj1 (by omega), h1,
            fun j hj1 hj2 => h4 j hj1 (by omega)⟩⟩
      | none => rw [hD] at hok; cases hok
  · unfold findLastUpdatedRow
    cases hL : ((dataRowIndices s).filter
        (fun r => truthy (getCell s r logColumnIndex).value)).getLast? with
    | some rl =>
      simp only [reduceCtorEq, false_iff, not_and]
      intro hlog
      obtain ⟨h1, h2, h3, -⟩ := (lastSatisfying_some _ 3 (s.length - 2) rl).mp hL
      rw [hlog rl h2 (by omega)] at h1
      cases h1
    | none =>
      have hnone := (lastSatisfying_none _ 3 (s.length - 2)).mp hL
      cases hD : ((dataRowIndices s).filter
          (fun r => (coerceDate (getCell s r 1).value).isSome)).getLast? with
      | some rd =>
        simp only [reduceCtorEq, false_iff, not_and]
        rintro - hdate
        obtain ⟨h1, h2, h3, -⟩ := (lastSatisfying_some _ 3 (s.length - 2) rd).mp hD
        rw [hdate rd h2 (by omega)] at h1
        cases h1
      | none =>
        have hdnone := (lastSatisfying_none _ 3 (s.length - 2)).mp hD
        simp only [Except.error.injEq, true_iff]
        exact ⟨fun j hj1 hj2 => hnone j hj1 (by omega),
          fun j hj1 hj2 => hdnone j hj1 (by omega)⟩



/-- Rows 1–2 headers; row 3 dated without status; row 4 undated but
holding status text in column O. -/
def exC5 : Sheet :=
  [[], [], [⟨.dateV ⟨2024, 1, 1⟩, "General"⟩],
    List.replicate 14 Cell.default ++ [⟨.str "OK 01/01/2024 10:00:00", "General"⟩]]

/-- C5 (counterexample).  The claim says the last-updated row is
chosen "among dated rows" (falling back to the latest dated row — here
row 3).  The code scans *all* rows for a truthy status cell: on `exC5`
it returns row 4, which carries no date at all. -/
theorem lastUpdatedRow_picks_undated_row :
    findLastUpdatedRow exC5 = .ok 4 ∧
      coerceDate (getCell exC5 4 1).value = none ∧
      coerceDate (getCell exC5 3 1).value = some ⟨2024, 1, 1⟩ ∧
      truthy (getCell exC5 3 15).value = false :=
  ⟨rfl, rfl, rfl, by decide⟩

/-- Row 3 dated and carrying status text — a well-formed ledger. -/
def exW5 : Sheet :=
  [[], [], [⟨.dateV ⟨2024, 1, 2⟩, "General"⟩] ++ List.replicate 13 Cell.default ++
    [⟨.str "OK x", "General"⟩]]

/-- Witness for the amended C5 at a concrete ledger. -/
theorem findLastUpdatedRow_characterization_witness :
    truthy (getCell exW5 3 logColumnIndex).value = true ∨
      (coerceDate (getCell exW5 3 1).value).isSome = true := by
  rcases ((findLastUpdatedRow_characterization exW5).1 3 rfl).2.2 with h | h
  · exact Or.inl h.1
  · exact Or.inr h.2.1




theorem replaceRows_fst (d : String) (dr : List String) :
    ∀ l : List (List String),
      (replaceRows d dr l).1 = l.map (fun r => if r.headD "" = d then dr else r) := by
  intro l
  induction l with
  | nil => rfl
  | cons r rs ih =>
    simp only [replaceRows, List.map_cons]
    split_ifs with h <;> simp only [ih]

theorem replaceRows_snd (d : String) (dr : List String) :
    ∀ l : List (List String),
      (replaceRows d dr l).2 = l.any (fun r => r.headD "" == d) := by
  intro l
  induction l with
  | nil => rfl
  | cons r rs ih =>
    simp only [replaceRows, List.any_cons]
    split_ifs with h
    · rw [beq_iff_eq.mpr h, Bool.true_or]
    · rw [beq_eq_false_iff_ne.mpr h, Bool.false_or]
      exact ih

theorem mapReplace_filter_ne (d : String) (dr : List String)
    (hd : dr.headD "" = d) :
    ∀ l : List (List String),
      ((l.map (fun r => if r.headD "" = d then dr else r)).filter
          (fun r => !(r.headD "" == d))) =
        l.filter (fun r => !(r.headD "" == d)) := by
  intro l
  induction l with
  | nil => rfl
  | cons r rs ih =>
    simp only [List.map_cons, List.filter_cons]
    by_cases h : r.headD "" = d
    · rw [if_pos h]
      have h1 : (!(dr.headD "" == d)) = false := by rw [beq_iff_eq.mpr hd]; rfl
      have h2 : (!(r.headD "" == d)) = false := by rw [beq_iff_eq.mpr h]; rfl
      rw [h1, h2, ih]
      rfl
    · rw [if_neg h]
      have h2 : (!(r.headD "" == d)) = true := by rw [beq_eq_false_iff_ne.mpr h]; rfl
      rw [h2, ih]

theorem mapReplace_filter_eq (d : String) (dr : List String)
    (hd : dr.headD "" = d) :
    ∀ l : List (List String),
      ((l.map (fun r => if r.headD "" = d then dr else r)).filter
          (fun r => r.headD "" == d)) =
        List.replicate (l.countP (fun r => r.headD "" == d)) dr := by
  intro l
  induction l with
  | nil => rfl
  | cons r rs ih =>
    simp only [List.map_cons, List.filter_cons, List.countP_cons]
    by_cases h : r.headD "" = d
    · rw [if_pos h, beq_iff_eq.mpr hd, beq_iff_eq.mpr h, ih]
      rfl
    · rw [if_neg h, beq_eq_false_iff_ne.mpr h, ih]
      rfl

theorem mapReplace_id (d : String) (dr : List String) :
    ∀ l : List (List String),
      l.countP (fun r => r.headD "" == d) = 0 →
      l.map (fun r => if r.headD "" = d then dr else r) = l := by
  intro l
  induction l with
  | nil => intro _; rfl
  | cons r rs ih =>
    intro hc
    simp only [List.countP_cons] at hc
    by_cases h : r.headD "" = d
    · rw [beq_iff_eq.mpr h] at hc
      rw [if_pos rfl] at hc
      omega
    · rw [beq_eq_false_iff_ne.mpr h] at hc
      rw [if_neg Bool.false_ne_true, Nat.add_zero] at hc
      rw [List.map_cons, if_neg h, ih hc]



theorem csvMerge_spec (existing : List (List String)) (d : String) (dr : List String)
    (hd : dr.headD "" = d) :
    (((updateCsvRows existing d dr).drop 1).filter (fun r => !(r.headD "" == d)) =
        (existing.filter (fun r => !r.isEmpty && isDateShaped (r.headD ""))).filter
          (fun r => !(r.headD "" == d))) ∧
      ((existing.filter (fun r => !r.isEmpty && isDateShaped (r.headD ""))).countP
          (fun r => r.headD "" == d) ≤ 1 →
        ((updateCsvRows existing d dr).drop 1).filter (fun r => r.headD "" == d) = [dr]) ∧
      ((existing.filter (fun r => !r.isEmpty && isDateShaped (r.headD ""))).countP
          (fun r => r.headD "" == d) = 0 →
        (updateCsvRows existing d dr).drop 1 =
          existing.filter (fun r => !r.isEmpty && isDateShaped (r.headD "")) ++ [dr]) := by
  set L := existing.filter (fun r => !r.isEmpty && isDateShaped (r.headD "")) with hL
  have hdrop : (updateCsvRows existing d dr).drop 1 =
      if (replaceRows d dr L).2 then (replaceRows d dr L).1
      else (replaceRows d dr L).1 ++ [dr] := by
    unfold updateCsvRows
    rw [← hL]
    rfl
  have hany0 : L.any (fun r => r.headD "" == d) = false ↔
      L.countP (fun r => r.headD "" == d) = 0 := by
    rw [List.countP_eq_zero]
    rw [← Bool.not_eq_true, List.any_eq_true]
    constructor
    · intro h a ha hp
      exact h ⟨a, ha, hp⟩
    · rintro h ⟨a, ha, hp⟩
      exact h a ha hp
  refine ⟨?_, ?_, ?_⟩
  · rw [hdrop]
    by_cases hA : (replaceRows d dr L).2
    · rw [if_pos hA, replaceRows_fst, mapReplace_filter_ne d dr hd]
    · rw [if_neg hA, List.filter_append, replaceRows_fst, mapReplace_filter_ne d dr hd]
      have : List.filter (fun r => !(r.headD "" == d)) [dr] = [] := by
        rw [List.filter_cons]
        rw [show (!(dr.headD "" == d)) = false by rw [beq_iff_eq.mpr hd]; rfl]
        rfl
      rw [this, List.append_nil]
  · intro hle
    rw [hdrop]
    by_cases hA : (replaceRows d dr L).2
    · rw [if_pos hA, replaceRows_fst, mapReplace_filter_eq d dr hd]
      have hpos : L.countP (fun r => r.headD "" == d) ≠ 0 := by
        intro h0
        rw [replaceRows_snd, hany0.mpr h0] at hA
        cases hA
      have hone : L.countP (fun r => r.headD "" == d) = 1 := by omega
      rw [hone]
      rfl
    · rw [if_neg hA, List.filter_append, replaceRows_fst, mapReplace_filter_eq d dr hd]
      have h0 : L.countP (fun r => r.headD "" == d) = 0 := by
        rw [replaceRows_snd] at hA
        exact hany0.mp (Bool.not_eq_true _ ▸ eq_false_of_ne_true hA)
      rw [h0]
      have : List.filter (fun r => r.headD "" == d) [dr] = [dr] := by
        rw [List.filter_cons]
        rw [beq_iff_eq.mpr hd]
        rfl
      rw [this]
      rfl
  · intro h0
    rw [hdrop]
    have hA : (replaceRows d dr L).2 = false := by
      rw [replaceRows_snd]
      exact hany0.mpr h0
    rw [hA, if_neg (by simp), replaceRows_fst, mapReplace_id d dr L h0]



theorem updateCsv_cons (existing : List (List String)) (d : String) (dr : List String) :
    updateCsvRows existing d dr =
      defaultCsvHeader :: (updateCsvRows existing d dr).drop 1 := by
  unfold updateCsvRows
  rfl

theorem updateCsv_drop1_mem (existing : List (List String)) (d : String)
    (dr : List String) (r : List String)
    (hr : r ∈ (updateCsvRows existing d dr).drop 1) :
    r = dr ∨ (r ∈ existing ∧ (!r.isEmpty && isDateShaped (r.headD "")) = true) := by
  set L := existing.filter (fun r => !r.isEmpty && isDateShaped (r.headD "")) with hL
  have hdrop : (updateCsvRows existing d dr).drop 1 =
      if (replaceRows d dr L).2 then (replaceRows d dr L).1
      else (replaceRows d dr L).1 ++ [dr] := by
    unfold updateCsvRows
    rw [← hL]
    rfl
  rw [hdrop] at hr
  have hmap : ∀ x, x ∈ (replaceRows d dr L).1 →
      x = dr ∨ (x ∈ existing ∧ (!x.isEmpty && isDateShaped (x.headD "")) = true) := by
    intro x hx
    rw [replaceRows_fst] at hx
    obtain ⟨a, ha, hax⟩ := List.mem_map.mp hx
    by_cases hcond : a.headD "" = d
    · rw [if_pos hcond] at hax
      exact Or.inl hax.symm
    · rw [if_neg hcond] at hax
      subst hax
      have := List.mem_filter.mp (hL ▸ ha)
      exact Or.inr ⟨this.1, this.2⟩
  by_cases hA : (replaceRows d dr L).2
  · rw [if_pos hA] at hr
    exact hmap r hr
  · rw [if_neg hA] at hr
    rcases List.mem_append.mp hr with h | h
    · exact hmap r h
    · exact Or.inl (List.mem_singleton.mp h)

/-- C7 (amended).  `update_csv_from_xlsx` keeps only the date-shaped
data rows of the existing CSV and always emits the canonical default
header as the single header row — surviving header rows from the input
are discarded, not preserved (the claim's "kept when they survive" is
refuted by `csv_custom_header_discarded`). -/
theorem updateCsvRows_default_header (existing : List (List String)) (dateValue : String)
    (dataRow : List String) :
    (updateCsvRows existing dateValue dataRow).headD [] = defaultCsvHeader ∧
      ∀ r ∈ (updateCsvRows existing dateValue dataRow).drop 1,
        r = dataRow ∨ (r ∈ existing ∧ (!r.isEmpty && isDateShaped (r.headD "")) = true) := by
  constructor
  · rw [updateCsv_cons]
    rfl
  · intro r hr
    exact updateCsv_drop1_mem existing dateValue dataRow r hr

/-- C7 (counterexample).  The claim says surviving header rows are
kept and the default header substituted only when none survive.  On a
CSV whose header row is the custom `["Cabecalho antigo"]`, the rewrite
discards it and emits the canonical default header anyway. -/
theorem csv_custom_header_discarded :
    isDateShaped "Cabecalho antigo" = false ∧
      updateCsvRows [["Cabecalho antigo"], ["01/01/2024", "5,0000"]]
          "02/01/2024" ["02/01/2024", "5,1000"] =
        [defaultCsvHeader, ["01/01/2024", "5,0000"], ["02/01/2024", "5,1000"]] ∧
      ["Cabecalho antigo"] ∉ updateCsvRows [["Cabecalho antigo"], ["01/01/2024", "5,0000"]]
          "02/01/2024" ["02/01/2024", "5,1000"] := by
  refine ⟨by decide, by decide, by decide⟩

/-- Witness for the amended C7 at a concrete CSV. -/
theorem updateCsvRows_default_header_witness :
    (updateCsvRows [["01/01/2024", "x"]] "02/01/2024" ["02/01/2024", "y"]).headD [] =
        defaultCsvHeader ∧
      (["01/01/2024", "x"] = ["02/01/2024", "y"] ∨
        (["01/01/2024", "x"] ∈ [[("01/01/2024" : String), "x"]] ∧
          (!(["01/01/2024", "x"] : List String).isEmpty &&
            isDateShaped ((["01/01/2024", "x"] : List String).headD "")) = true)) := by
  refine ⟨(updateCsvRows_default_header [["01/01/2024", "x"]] "02/01/2024"
    ["02/01/2024", "y"]).1, ?_⟩
  exact (updateCsvRows_default_header [["01/01/2024", "x"]] "02/01/2024"
    ["02/01/2024", "y"]).2 ["01/01/2024", "x"] (by decide)



/-- C6 (amended).  The CSV merge replaces *every* existing data row
for the exported date with the new row (so exactly one row for the date
survives whenever the existing data rows held at most one — the claim's
unconditional "exactly one" fails on an already-duplicated CSV, see
`csv_duplicate_date_rows_both_replaced`); when the date is absent the
new row is appended after the last data row; all other dates keep their
relative order; and writing the same date twice from a duplicate-free
file leaves exactly one row for the date, holding the latest values. -/
theorem updateCsvRows_replace_semantics (existing : List (List String))
    (dateValue : String) (d1 d2 : List String)
    (h1 : d1.headD "" = dateValue) (h2 : d2.headD "" = dateValue)
    (hshape : isDateShaped dateValue = true)
    (hdup : (existing.filter (fun r => !r.isEmpty && isDateShaped (r.headD ""))).countP
        (fun r => r.headD "" == dateValue) ≤ 1) :
    ((updateCsvRows existing dateValue d1).drop 1).filter
        (fun r => !(r.headD "" == dateValue)) =
      (existing.filter (fun r => !r.isEmpty && isDateShaped (r.headD ""))).filter
        (fun r => !(r.headD "" == dateValue)) ∧
    ((updateCsvRows existing dateValue d1).drop 1).filter
        (fun r => r.headD "" == dateValue) = [d1] ∧
    ((existing.filter (fun r => !r.isEmpty && isDateShaped (r.headD ""))).countP
        (fun r => r.headD "" == dateValue) = 0 →
      (updateCsvRows existing dateValue d1).drop 1 =
        existing.filter (fun r => !r.isEmpty && isDateShaped (r.headD "")) ++ [d1]) ∧
    ((updateCsvRows (updateCsvRows existing dateValue d1) dateValue d2).drop 1).filter
        (fun r => r.headD "" == dateValue) = [d2] := by
  obtain ⟨hA, hB, hC⟩ := csvMerge_spec existing dateValue d1 h1
  refine ⟨hA, hB hdup, hC, ?_⟩
  have hd1ne : d1 ≠ [] := by
    intro hnil
    rw [hnil] at h1
    rw [← h1] at hshape
    cases hshape
  have hpredd1 : (!d1.isEmpty && isDateShaped (d1.headD "")) = true := by
    cases d1 with
    | nil => exact absurd rfl hd1ne
    | cons x xs =>
      rw [show (x :: xs).headD "" = x from rfl] at h1 ⊢
      rw [h1, hshape]
      rfl
  set rows1 := (updateCsvRows existing dateValue d1).drop 1 with hrows1
  have hfilterself : rows1.filter (fun r => !r.isEmpty && isDateShaped (r.headD "")) =
      rows1 := by
    rw [List.filter_eq_self]
    intro r hr
    rcases updateCsv_drop1_mem existing dateValue d1 r hr with h | h
    · rw [h]; exact hpredd1
    · exact h.2
  have hL2 : (updateCsvRows existing dateValue d1).filter
      (fun r => !r.isEmpty && isDateShaped (r.headD "")) = rows1 := by
    rw [updateCsv_cons existing dateValue d1, List.filter_cons, ← hrows1]
    rw [show (!defaultCsvHeader.isEmpty && isDateShaped (defaultCsvHeader.headD "")) =
      false by decide]
    exact hfilterself
  have hcount1 : rows1.countP (fun r => r.headD "" == dateValue) = 1 := by
    rw [List.countP_eq_length_filter, hB hdup]
    rfl
  obtain ⟨-, hB2, -⟩ := csvMerge_spec (updateCsvRows existing dateValue d1)
    dateValue d2 h2
  refine hB2 ?_
  rw [hL2, hcount1]



/-- C6 (counterexample).  On a CSV that already holds two data rows
for the same date, the rewrite replaces *both* with the new row, so the
output has two rows for the exported date — not "exactly one data row
for the exported date" as the claim states for every existing CSV. -/
theorem csv_duplicate_date_rows_both_replaced :
    updateCsvRows [["01/01/2024", "a"], ["01/01/2024", "b"]] "01/01/2024"
        ["01/01/2024", "c"] =
      [defaultCsvHeader, ["01/01/2024", "c"], ["01/01/2024", "c"]] ∧
      ((updateCsvRows [["01/01/2024", "a"], ["01/01/2024", "b"]] "01/01/2024"
          ["01/01/2024", "c"]).drop 1).countP
        (fun r => r.headD "" = "01/01/2024") = 2 := by
  constructor <;> decide

/-- Witness for the amended C6: updating a one-row CSV twice for the
same date leaves exactly the latest row for that date. -/
theorem updateCsvRows_replace_semantics_witness :
    ((updateCsvRows (updateCsvRows [["01/01/2024", "1,0000"]] "01/01/2024"
        ["01/01/2024", "2,0000"]) "01/01/2024" ["01/01/2024", "3,0000"]).drop 1).filter
      (fun r => r.headD "" == "01/01/2024") = [["01/01/2024", "3,0000"]] :=
  (updateCsvRows_replace_semantics [["01/01/2024", "1,0000"]] "01/01/2024"
    ["01/01/2024", "2,0000"] ["01/01/2024", "3,0000"] (by decide) (by decide)
    (by decide) (by decide)).2.2.2



theorem migrateRow_nil : migrateRow [] = [] := rfl

theorem getD_migrateRowsFrom :
    ∀ (s : Sheet) (k i : Nat),
      (migrateRowsFrom k s).getD i [] =
        if i < k then s.getD i [] else migrateRow (s.getD i []) := by
  intro s
  induction s with
  | nil =>
    intro k i
    simp only [migrateRowsFrom, List.getD_nil]
    rw [migrateRow_nil]
    split_ifs <;> rfl
  | cons r rs ih =>
    intro k i
    cases k with
    | zero =>
      cases i with
      | zero => simp [migrateRowsFrom]
      | succ j =>
        simp only [migrateRowsFrom, List.getD_cons_succ]
        rw [ih 0 j]
        simp
    | succ n =>
      cases i with
      | zero => simp [migrateRowsFrom]
      | succ j =>
        simp only [migrateRowsFrom, List.getD_cons_succ]
        rw [ih n j]
        by_cases hj : j < n
        · rw [if_pos hj, if_pos (by omega)]
        · rw [if_neg hj, if_neg (by omega)]

theorem getD_setHeaders_ge (s : Sheet) (i : Nat) (hi : 2 ≤ i) :
    (setHeaders s).getD i [] = s.getD i [] := by
  unfold setHeaders sheetModify
  rw [getD_setAt, if_neg (by omega), getD_setAt, if_neg (by omega),
    getD_setAt, if_neg (by omega), getD_setAt, if_neg (by omega),
    getD_setAt, if_neg (by omega), getD_setAt, if_neg (by omega),
    getD_setAt, if_neg (by omega), getD_setAt, if_neg (by omega)]

theorem getCell_setHeaders_ne (s : Sheet) (r c : Nat) (hr : 1 ≤ r) (hc : 1 ≤ c)
    (h : ¬(r ≤ 2 ∧ 12 ≤ c ∧ c ≤ 15)) :
    getCell (setHeaders s) r c = getCell s r c := by
  unfold setHeaders
  rw [getCell_sheetModify _ _ _ _ _ _ (by omega) (by omega) hr hc,
    if_neg (by rintro ⟨h1, h2⟩; omega)]
  rw [getCell_sheetModify _ _ _ _ _ _ (by omega) (by omega) hr hc,
    if_neg (by rintro ⟨h1, h2⟩; omega)]
  rw [getCell_sheetModify _ _ _ _ _ _ (by omega) (by omega) hr hc,
    if_neg (by rintro ⟨h1, h2⟩; omega)]
  rw [getCell_sheetModify _ _ _ _ _ _ (by omega) (by omega) hr hc,
    if_neg (by rintro ⟨h1, h2⟩; omega)]
  rw [getCell_sheetModify _ _ _ _ _ _ (by omega) (by omega) hr hc,
    if_neg (by rintro ⟨h1, h2⟩; omega)]
  rw [getCell_sheetModify _ _ _ _ _ _ (by omega) (by omega) hr hc,
    if_neg (by rintro ⟨h1, h2⟩; omega)]
  rw [getCell_sheetModify _ _ _ _ _ _ (by omega) (by omega) hr hc,
    if_neg (by rintro ⟨h1, h2⟩; omega)]
  rw [getCell_sheetModify _ _ _ _ _ _ (by omega) (by omega) hr hc,
    if_neg (by rintro ⟨h1, h2⟩; omega)]

theorem getCell_ensureLayout_data (s : Sheet) (r c : Nat) (hr : 3 ≤ r) :
    getCell (ensureLayout s) r c =
      (migrateRow (s.getD (r - 1) [])).getD (c - 1) Cell.default := by
  show ((migrateRowsFrom 2 (setHeaders s)).getD (r - 1) []).getD (c - 1) Cell.default = _
  rw [getD_migrateRowsFrom, if_neg (by omega), getD_setHeaders_ge s (r - 1) (by omega)]

theorem migrateRow_not_log (row : SheetRow)
    (h : looksLikeLog (row.getD 11 Cell.default).value = false) :
    migrateRow row = row := by
  unfold migrateRow
  split
  · rename_i t heq
    rw [heq] at h
    rw [if_neg (by rw [h]; exact Bool.false_ne_true)]
  · rfl

theorem migrateRow_log (row : SheetRow) (t : String)
    (heq : (row.getD 11 Cell.default).value = .str t)
    (hlog : looksLikeLog (.str t) = true) :
    migrateRow row =
      setAt Cell.default (fun cell => { cell with value := .blank }) 11
        (if isBlank (row.getD 14 Cell.default).value then
          setAt Cell.default (fun cell => { cell with value := .str (strTrim t) }) 14 row
        else row) := by
  unfold migrateRow
  split
  · rename_i t' heq'
    rw [heq] at heq'
    injection heq' with ht
    subst ht
    rw [if_pos hlog]
  · rename_i hno
    exact absurd heq (hno t)

/-- C8 (amended).  On load, for every row `r ≥ 3` (dated or not —
the migration loop does not check the date): when the old combined log
column (column 12) holds status-like text, that cell is *always*
blanked, and the stripped text is copied into the status column
(column 15) only when the latter is blank — a non-blank status column
keeps its value while the old cell is still cleared (the claim's "both
cells unchanged unless both conditions hold" fails, see
`ensureLayout_blanks_old_log_despite_status`); rows whose column 12 is
not status-like keep both cells, and all other columns are never
touched by the migration. -/
theorem ensureLayout_migration (s : Sheet) (r : Nat) (hr : 3 ≤ r) :
    (∀ t, (getCell s r 12).value = .str t → looksLikeLog (.str t) = true →
      ((getCell (ensureLayout s) r 12).value = .blank ∧
        (isBlank (getCell s r 15).value = true →
          (getCell (ensureLayout s) r 15).value = .str (strTrim t)) ∧
        (isBlank (getCell s r 15).value = false →
          (getCell (ensureLayout s) r 15).value = (getCell s r 15).value))) ∧
      (looksLikeLog (getCell s r 12).value = false →
        ((getCell (ensureLayout s) r 12).value = (getCell s r 12).value ∧
          (getCell (ensureLayout s) r 15).value = (getCell s r 15).value)) ∧
      (∀ c, 1 ≤ c → c ≠ 12 → c ≠ 15 →
        (getCell (ensureLayout s) r c).value = (getCell s r c).value) := by
  have h12 : getCell s r 12 = (s.getD (r - 1) []).getD 11 Cell.default := rfl
  have h15 : getCell s r 15 = (s.getD (r - 1) []).getD 14 Cell.default := rfl
  refine ⟨?_, ?_, ?_⟩
  · intro t heq hlog
    have hmig := migrateRow_log (s.getD (r - 1) []) t (h12 ▸ heq) hlog
    refine ⟨?_, ?_, ?_⟩
    · rw [getCell_ensureLayout_data s r 12 hr, hmig, getD_setAt, if_pos rfl]
    · intro hb
      rw [getCell_ensureLayout_data s r 15 hr, hmig, getD_setAt,
        if_neg (by omega)]
      rw [h15] at hb
      rw [if_pos hb, getD_setAt, if_pos rfl]
    · intro hb
      rw [getCell_ensureLayout_data s r 15 hr, hmig, getD_setAt,
        if_neg (by omega)]
      rw [h15] at hb
      rw [if_neg (by rw [hb]; exact Bool.false_ne_true), h15]
  · intro hlog
    have hmig := migrateRow_not_log (s.getD (r - 1) []) (h12 ▸ hlog)
    rw [getCell_ensureLayout_data s r 12 hr, getCell_ensureLayout_data s r 15 hr, hmig]
    exact ⟨rfl, rfl⟩
  · intro c hc hc12 hc15
    rw [getCell_ensureLayout_data s r c hr]
    by_cases hl : looksLikeLog ((s.getD (r - 1) []).getD 11 Cell.default).value
    · cases hv : ((s.getD (r - 1) []).getD 11 Cell.default).value with
      | str t =>
        have hmig := migrateRow_log (s.getD (r - 1) []) t hv (hv ▸ hl)
        rw [hmig, getD_setAt, if_neg (by omega)]
        split_ifs with hb
        · rw [getD_setAt, if_neg (by omega)]
          rfl
        · rfl
      | blank => rw [hv] at hl; cases hl
      | num q => rw [hv] at hl; cases hl
      | dateV d => rw [hv] at hl; cases hl
    · rw [migrateRow_not_log (s.getD (r - 1) []) (by simpa using hl)]
      rfl

/-- Row 3: dated, old log column holds "OK antigo", status column holds
"ERRO novo" (non-blank). -/
def exC8 : Sheet :=
  [[], [], [⟨.dateV ⟨2024, 1, 1⟩, "General"⟩] ++ List.replicate 10 Cell.default ++
    [⟨.str "OK antigo", "General"⟩] ++ List.replicate 2 Cell.default ++
    [⟨.str "ERRO novo", "General"⟩]]

/-- C8 (counterexample).  The claim says the move happens *exactly
when* column 12 is status-like and column 15 is blank, and that rows
failing either condition keep both cells unchanged.  On `exC8` the
status column is non-blank, yet `_ensure_layout` still blanks the old
log cell (dropping its text). -/
theorem ensureLayout_blanks_old_log_despite_status :
    looksLikeLog (getCell exC8 3 12).value = true ∧
      isBlank (getCell exC8 3 15).value = false ∧
      (getCell (ensureLayout exC8) 3 12).value = .blank ∧
      (getCell (ensureLayout exC8) 3 15).value = .str "ERRO novo" := by
  refine ⟨by decide, by decide, by decide, by decide⟩

/-- Row 3: dated, legacy status text (with stray spaces) only in the
old log column; the status column is blank. -/
def exW8 : Sheet :=
  [[], [], [⟨.dateV ⟨2024, 1, 1⟩, "General"⟩] ++ List.replicate 10 Cell.default ++
    [⟨.str " OK antigo ", "General"⟩]]

/-- Witness for the amended C8: a never-migrated ledger exposes the old
log text (stripped) as the status value. -/
theorem ensureLayout_migration_witness :
    (getCell (ensureLayout exW8) 3 12).value = .blank ∧
      (getCell (ensureLayout exW8) 3 15).value = .str (strTrim " OK antigo ") := by
  obtain ⟨h1, h2, -⟩ :=
    (ensureLayout_migration exW8 3 (by omega)).1 " OK antigo " rfl (by decide)
  exact ⟨h1, h2 (by decide)⟩


/-- The (source, field) pairs `update_xlsx_quotes_and_log` can ever
record: both CDI kinds live under the `selic` source key. -/
def reportPairs : List (String × String) :=
  [("usd_brl", "compra"), ("usd_brl", "venda"),
   ("ptax_usd", "compra"), ("ptax_usd", "venda"),
   ("turismo", "compra"), ("turismo", "venda"),
   ("ptax_eur", "compra"), ("ptax_eur", "venda"),
   ("ptax_chf", "compra"), ("ptax_chf", "venda"),
   ("tjlp", "valor"), ("tjlp", "valor_repetido"),
   ("selic", "selic"), ("selic", "selic_repetido"),
   ("selic", "cdi"), ("selic", "cdi_repetido")]

/-- Structural invariant of the write report: no empty field tuples,
and every recorded (source, field) pair is one of `reportPairs`. -/
def WrittenOk (w : Written) : Prop :=
  ∀ p ∈ w, p.2 ≠ [] ∧ ∀ f ∈ p.2, (p.1, f) ∈ reportPairs

theorem writtenOk_nil : WrittenOk [] := by
  intro p hp
  cases hp

theorem writtenOk_append (w : Written) (src fld : String) (h : WrittenOk w)
    (hp : (src, fld) ∈ reportPairs) : WrittenOk (appendWritten w src fld) := by
  intro p hpmem
  unfold appendWritten at hpmem
  split_ifs at hpmem with hany
  · obtain ⟨q, hq, hqe⟩ := List.mem_map.mp hpmem
    by_cases hqs : q.1 = src
    · rw [if_pos hqs] at hqe
      subst hqe
      refine ⟨by simp, fun f hf => ?_⟩
      rcases List.mem_append.mp hf with hf | hf
      · exact (h q hq).2 f hf
      · rw [List.mem_singleton.mp hf, hqs]
        exact hp
    · rw [if_neg hqs] at hqe
      subst hqe
      exact h q hq
  · rcases List.mem_append.mp hpmem with hf | hf
    · exact h p hf
    · rw [List.mem_singleton.mp hf]
      exact ⟨by simp, fun f hfm => by rw [List.mem_singleton.mp hfm]; exact hp⟩

theorem writtenOk_condAppend (w : Written) (b : Bool) (src fld : String)
    (h : WrittenOk w) (hp : (src, fld) ∈ reportPairs) :
    WrittenOk (if b then appendWritten w src fld else w) := by
  cases b
  · exact h
  · exact writtenOk_append w src fld h hp

theorem stepUsdBrl_writtenOk (row : Nat) (q : Option ℚ) (spread : ℚ) (ow : Bool)
    (st : UpdState) (h : WrittenOk st.written) :
    WrittenOk (stepUsdBrl row q spread ow st).written := by
  cases q with
  | none => exact h
  | some v =>
    unfold stepUsdBrl
    simp only
    refine writtenOk_condAppend _ _ _ _ ?_ (by decide)
    exact writtenOk_condAppend _ _ _ _ h (by decide)

theorem writeCell_writtenOk (st : UpdState) (r c : Nat) (v : CellValue)
    (fmt : Option String) (ow : Bool) (src fld : String) (h : WrittenOk st.written)
    (hp : (src, fld) ∈ reportPairs) :
    WrittenOk (writeCell st r c v fmt ow src fld).written := by
  unfold writeCell
  exact writtenOk_condAppend _ _ _ _ h hp

theorem stepPair_writtenOk (row colB colS : Nat) (src : String) (q : Option (ℚ × ℚ))
    (ow : Bool) (st : UpdState) (h : WrittenOk st.written)
    (h1 : (src, "compra") ∈ reportPairs) (h2 : (src, "venda") ∈ reportPairs) :
    WrittenOk (stepPair row colB colS src q ow st).written := by
  cases q with
  | none => exact h
  | some bs =>
    exact writeCell_writtenOk _ _ _ _ _ _ _ _
      (writeCell_writtenOk _ _ _ _ _ _ _ _ h h1) h2

theorem stepRate_writtenOk (row col : Nat) (src fld fmtS : String)
    (transform : ℚ → ℚ) (q : Option ℚ) (ow : Bool) (st : UpdState)
    (h : WrittenOk st.written) (hp : (src, fld) ∈ reportPairs) :
    WrittenOk (stepRate row col src fld fmtS transform q ow st).written := by
  cases q with
  | none => exact h
  | some v => exact writeCell_writtenOk _ _ _ _ _ _ _ _ h hp

theorem stepRepeat_writtenOk (row col : Nat) (fmtS src fld : String) (st : UpdState)
    (h : WrittenOk st.written) (hp : (src, fld) ∈ reportPairs) :
    WrittenOk (stepRepeat row col fmtS src fld st).written := by
  unfold stepRepeat
  exact writtenOk_condAppend _ _ _ _ h hp

theorem applyQuotes_writtenOk (s : Sheet) (a : QuotesArgs) :
    WrittenOk (applyQuotesAndLog s a).2 := by
  unfold applyQuotesAndLog
  refine stepRepeat_writtenOk _ _ _ _ _ _ ?_ (by decide)
  refine stepRepeat_writtenOk _ _ _ _ _ _ ?_ (by decide)
  refine stepRepeat_writtenOk _ _ _ _ _ _ ?_ (by decide)
  refine stepRate_writtenOk _ _ _ _ _ _ _ _ _ ?_ (by decide)
  refine stepRate_writtenOk _ _ _ _ _ _ _ _ _ ?_ (by decide)
  refine stepRate_writtenOk _ _ _ _ _ _ _ _ _ ?_ (by decide)
  refine stepPair_writtenOk _ _ _ _ _ _ _ ?_ (by decide) (by decide)
  refine stepPair_writtenOk _ _ _ _ _ _ _ ?_ (by decide) (by decide)
  refine stepPair_writtenOk _ _ _ _ _ _ _ ?_ (by decide) (by decide)
  refine stepPair_writtenOk _ _ _ _ _ _ _ ?_ (by decide) (by decide)
  refine stepUsdBrl_writtenOk _ _ _ _ _ ?_
  exact writtenOk_nil



/-- C10.  In the report of `update_xlsx_quotes_and_log`, every CDI
write — fresh (`"cdi"`) or repeated (`"cdi_repetido"`) — is recorded
under the `"selic"` source key; no `"cdi"` key ever exists; and a
source key is present only with a non-empty field tuple (sources with
nothing written are simply absent). -/
theorem quotes_report_cdi_under_selic (s : Sheet) (a : QuotesArgs) :
    ∀ p ∈ (applyQuotesAndLog s a).2,
      p.2 ≠ [] ∧ p.1 ≠ "cdi" ∧
        ∀ f ∈ p.2, (f = "cdi" ∨ f = "cdi_repetido") → p.1 = "selic" := by
  intro p hp
  obtain ⟨hne, hpairs⟩ := applyQuotes_writtenOk s a p hp
  refine ⟨hne, ?_, ?_⟩
  · obtain ⟨f, hf⟩ := List.exists_mem_of_ne_nil p.2 hne
    have hkey : ∀ q ∈ reportPairs, q.1 ≠ "cdi" := by decide
    exact fun hc => hkey (p.1, f) (hpairs f hf) hc
  · intro f hf hcdi
    have hsel : ∀ q ∈ reportPairs, (q.2 = "cdi" ∨ q.2 = "cdi_repetido") →
        q.1 = "selic" := by decide
    exact hsel (p.1, f) (hpairs f hf) hcdi

/-- Witness for C10: a run writing a fresh CDI value records it as the
`("selic", ["cdi"])` entry, which the theorem then certifies. -/
theorem quotes_report_cdi_under_selic_witness :
    (("selic", ["cdi"]) : String × List String).2 ≠ [] ∧
      (("selic", ["cdi"]) : String × List String).1 ≠ "cdi" ∧
      ∀ f ∈ (("selic", ["cdi"]) : String × List String).2,
        (f = "cdi" ∨ f = "cdi_repetido") →
          (("selic", ["cdi"]) : String × List String).1 = "selic" :=
  quotes_report_cdi_under_selic [[], []]
    { targetDate := ⟨2024, 1, 5⟩, cdi := some (mkRat 551310642 (10 ^ 10)) }
    ("selic", ["cdi"]) (by decide)


theorem findPreviousNonBlank_some_iff (s : Sheet) (startRow col : Nat) (v : CellValue) :
    findPreviousNonBlankValue s startRow col = some v ↔
      ∃ rp, 3 ≤ rp ∧ rp < startRow ∧
        (coerceDate (getCell s rp 1).value).isSome = true ∧
        isBlank (getCell s rp col).value = false ∧
        (getCell s rp col).value = v ∧
        ∀ j, rp < j → j < startRow →
          (coerceDate (getCell s j 1).value).isSome = true →
          isBlank (getCell s j col).value = true := by
  unfold findPreviousNonBlankValue
  constructor
  · intro h
    obtain ⟨rp, hfind, hval⟩ := Option.map_eq_some'.mp h
    obtain ⟨hp, h1, h2, h3⟩ := (find?_reverse_range' _ 3 (startRow - 3) rp).mp hfind
    rw [Bool.and_eq_true, Bool.not_eq_true'] at hp
    refine ⟨rp, h1, by omega, hp.1, hp.2, hval, fun j hj1 hj2 hdj => ?_⟩
    have := h3 j hj1 (by omega)
    rw [Bool.and_eq_false_iff] at this
    rcases this with hcon | hcon
    · rw [hdj] at hcon; cases hcon
    · simpa using hcon
  · rintro ⟨rp, h1, h2, hd, hb, hval, hafter⟩
    have hfind : ((List.range' 3 (startRow - 3)).reverse.find? (fun r =>
        (coerceDate (getCell s r 1).value).isSome &&
          !isBlank (getCell s r col).value)) = some rp := by
      refine (find?_reverse_range' _ 3 (startRow - 3) rp).mpr
        ⟨by rw [Bool.and_eq_true, Bool.not_eq_true']; exact ⟨hd, hb⟩, h1, by omega,
          fun j hj1 hj2 => ?_⟩
      rw [Bool.and_eq_false_iff]
      by_cases hdj : (coerceDate (getCell s j 1).value).isSome = true
      · right
        rw [hafter j hj1 (by omega) hdj]
        rfl
      · left
        exact Bool.not_eq_true _ ▸ eq_false_of_ne_true hdj
    rw [hfind, Option.map_some']
    exact congrArg some hval

theorem findPreviousNonBlank_none_iff (s : Sheet) (startRow col : Nat) :
    findPreviousNonBlankValue s startRow col = none ↔
      ∀ j, 3 ≤ j → j < startRow →
        (coerceDate (getCell s j 1).value).isSome = true →
        isBlank (getCell s j col).value = true := by
  unfold findPreviousNonBlankValue
  rw [Option.map_eq_none']
  rw [find?_reverse_range'_none]
  constructor
  · intro h j hj1 hj2 hd
    have := h j hj1 (by omega)
    rw [Bool.and_eq_false_iff] at this
    rcases this with hcon | hcon
    · rw [hd] at hcon; cases hcon
    · simpa using hcon
  · intro h j hj1 hj2
    rw [Bool.and_eq_false_iff]
    by_cases hdj : (coerceDate (getCell s j 1).value).isSome = true
    · right
      rw [h j hj1 (by omega) hdj]
      rfl
    · left
      exact Bool.not_eq_true _ ▸ eq_false_of_ne_true hdj


/-- C4 (amended).  The interest-rate repeat rule, as the code
implements it: a still-blank cell receives the nearest non-blank value
among the *dated rows strictly above the target row*, scanned upward
(descending row order — this coincides with "strictly-earlier dates in
descending date order" only when the ledger's rows are sorted by date;
on an out-of-order ledger the copied value can come from a later date,
see `repeat_rule_copies_from_later_dated_row`).  The copy carries the
same number format as a fresh write, touches no other cell, reports
`true`; with no non-blank dated row above, the cell stays blank and
nothing is reported.  In `update_xlsx_quotes_and_log` the repeated
kinds are recorded as `valor_repetido` under `tjlp` and
`selic_repetido` / `cdi_repetido` under `selic`, distinct from the
fresh kinds. -/
theorem repeat_rule_characterization :
    (∀ (s : Sheet) (row col : Nat) (fmtS : String), 1 ≤ row → 1 ≤ col →
      (isBlank (getCell s row col).value = false →
        repeatPreviousValueIfBlank s row col (some fmtS) = (s, false)) ∧
      (isBlank (getCell s row col).value = true →
        (findPreviousNonBlankValue s row col = none →
          repeatPreviousValueIfBlank s row col (some fmtS) = (s, false)) ∧
        (∀ v, findPreviousNonBlankValue s row col = some v →
          (repeatPreviousValueIfBlank s row col (some fmtS)).2 = true ∧
          (getCell (repeatPreviousValueIfBlank s row col (some fmtS)).1 row col).value
            = v ∧
          (getCell (repeatPreviousValueIfBlank s row col (some fmtS)).1 row col).fmt
            = fmtS ∧
          ∀ rr cc, 1 ≤ rr → 1 ≤ cc → ¬(rr = row ∧ cc = col) →
            getCell (repeatPreviousValueIfBlank s row col (some fmtS)).1 rr cc =
              getCell s rr cc))) ∧
    (∀ (s : Sheet) (startRow col : Nat) (v : CellValue),
      findPreviousNonBlankValue s startRow col = some v ↔
        ∃ rp, 3 ≤ rp ∧ rp < startRow ∧
          (coerceDate (getCell s rp 1).value).isSome = true ∧
          isBlank (getCell s rp col).value = false ∧
          (getCell s rp col).value = v ∧
          ∀ j, rp < j → j < startRow →
            (coerceDate (getCell s j 1).value).isSome = true →
            isBlank (getCell s j col).value = true) ∧
    (∀ (s : Sheet) (startRow col : Nat),
      findPreviousNonBlankValue s startRow col = none ↔
        ∀ j, 3 ≤ j → j < startRow →
          (coerceDate (getCell s j 1).value).isSome = true →
          isBlank (getCell s j col).value = true) ∧
    (∀ (s : Sheet) (a : QuotesArgs), ∀ p ∈ (applyQuotesAndLog s a).2,
      ("valor_repetido" ∈ p.2 → p.1 = "tjlp") ∧
      ("selic_repetido" ∈ p.2 → p.1 = "selic") ∧
      ("cdi_repetido" ∈ p.2 → p.1 = "selic")) := by
  refine ⟨?_, findPreviousNonBlank_some_iff, findPreviousNonBlank_none_iff, ?_⟩
  · intro s row col fmtS hrow hcol
    constructor
    · intro hnb
      unfold repeatPreviousValueIfBlank
      rw [if_pos (by rw [hnb]; exact Bool.false_ne_true)]
    · intro hb
      constructor
      · intro hnone
        unfold repeatPreviousValueIfBlank
        rw [if_neg (by rw [hb]; exact fun hcon => hcon rfl), hnone]
      · intro v hsome
        have hvnb : isBlank v = false := by
          obtain ⟨rp, -, -, -, hb2, hval, -⟩ :=
            (findPreviousNonBlank_some_iff s row col v).mp hsome
          rw [← hval]
          exact hb2
        unfold repeatPreviousValueIfBlank
        rw [if_neg (by rw [hb]; exact fun hcon => hcon rfl), hsome]
        simp only
        rw [if_neg (by rw [hvnb]; exact Bool.false_ne_true)]
        refine ⟨rfl, ?_, ?_, ?_⟩
        · rw [getCell_sheetModify _ _ _ _ _ _ hrow hcol hrow hcol, if_pos ⟨rfl, rfl⟩,
            getCell_sheetModify _ _ _ _ _ _ hrow hcol hrow hcol, if_pos ⟨rfl, rfl⟩]
        · rw [getCell_sheetModify _ _ _ _ _ _ hrow hcol hrow hcol, if_pos ⟨rfl, rfl⟩]
        · intro rr cc hrr hcc hne
          rw [getCell_sheetModify _ _ _ _ _ _ hrow hcol hrr hcc,
            if_neg (fun hand => hne ⟨hand.1.symm, hand.2.symm⟩),
            getCell_sheetModify _ _ _ _ _ _ hrow hcol hrr hcc,
            if_neg (fun hand => hne ⟨hand.1.symm, hand.2.symm⟩)]
  · intro s a p hp
    obtain ⟨-, hpairs⟩ := applyQuotes_writtenOk s a p hp
    have h1 : ∀ q ∈ reportPairs, q.2 = "valor_repetido" → q.1 = "tjlp" := by decide
    have h2 : ∀ q ∈ reportPairs, q.2 = "selic_repetido" → q.1 = "selic" := by decide
    have h3 : ∀ q ∈ reportPairs, q.2 = "cdi_repetido" → q.1 = "selic" := by decide
    exact ⟨fun hf => h1 (p.1, _) (hpairs _ hf) rfl,
      fun hf => h2 (p.1, _) (hpairs _ hf) rfl,
      fun hf => h3 (p.1, _) (hpairs _ hf) rfl⟩

/-- Row 3 holds the *later* date 10/01/2024 with a TJLP value; the
update targets the *earlier* date 05/01/2024, which is appended as
row 4. -/
def exC4 : Sheet :=
  [[], [], [⟨.dateV ⟨2024, 1, 10⟩, "General"⟩] ++ List.replicate 10 Cell.default ++
    [⟨.num (mkRat 5 100), percentNumberFormat⟩]]

def argsC4 : QuotesArgs := { targetDate := ⟨2024, 1, 5⟩ }

/-- C4 (counterexample).  The claim: the repeat rule copies from
"strictly-earlier dated rows", and "if no earlier dated row has a
non-blank value, the cell stays blank and nothing is recorded".  Here
the only other dated row carries a *later* date, yet its TJLP value is
copied into the new row and reported as `valor_repetido`: the code
scans by row position, not by date. -/
theorem repeat_rule_copies_from_later_dated_row :
    dataRowIndices exC4 = [3] ∧
      coerceDate (getCell exC4 3 1).value = some ⟨2024, 1, 10⟩ ∧
      YMD.lt ⟨2024, 1, 10⟩ ⟨2024, 1, 5⟩ = false ∧
      (getCell (applyQuotesAndLog exC4 argsC4).1 4 12).value = .num (mkRat 5 100) ∧
      (applyQuotesAndLog exC4 argsC4).2 = [("tjlp", ["valor_repetido"])] := by
  refine ⟨by decide, rfl, by decide, by decide, by decide⟩

/-- Witness for the amended C4 at a concrete sheet: row 4 is blank in
column 12, row 3 above it is dated with a non-blank value, and the
repeat step copies that value with the percent format. -/
theorem repeat_rule_characterization_witness :
    (repeatPreviousValueIfBlank exC4 4 12 (some percentNumberFormat)).2 = true ∧
      (getCell (repeatPreviousValueIfBlank exC4 4 12 (some percentNumberFormat)).1
        4 12).value = .num (mkRat 5 100) ∧
      (getCell (repeatPreviousValueIfBlank exC4 4 12 (some percentNumberFormat)).1
        4 12).fmt = percentNumberFormat := by
  obtain ⟨ht, hv, hf, -⟩ :=
    ((repeat_rule_characterization.1 exC4 4 12 percentNumberFormat (by omega)
        (by omega)).2 (by decide)).2 (.num (mkRat 5 100)) (by decide)
  exact ⟨ht, hv, hf⟩


theorem setCell_noop (s : Sheet) (r c : Nat) (v : CellValue) (fmt : Option String)
    (hnb : isBlank (getCell s r c).value = false) :
    setCell s r c v fmt false = (s, false) := by
  unfold setCell
  rw [if_pos]
  constructor
  · exact Bool.false_ne_true
  · rw [hnb]; exact Bool.false_ne_true

theorem lookup_consW (k a : String) (v : List String) (es : Written) :
    ((a, v) :: es).lookup k = if k == a then some v else es.lookup k := by
  cases hka : k == a <;> simp [List.lookup, hka]

theorem lookup_appendWritten_ne (w : Written) (src fld k : String) (hk : k ≠ src) :
    (appendWritten w src fld).lookup k = w.lookup k := by
  unfold appendWritten
  split_ifs with hany
  · clear hany
    induction w with
    | nil => rfl
    | cons p w' ih =>
      obtain ⟨p1, p2⟩ := p
      rw [List.map_cons]
      by_cases hps : p1 = src
      · rw [if_pos (show (p1, p2).1 = src from hps)]
        rw [show ((p1, p2).1, (p1, p2).2 ++ [fld]) = (p1, p2 ++ [fld]) from rfl]
        rw [lookup_consW, lookup_consW]
        rw [show (k == p1) = false from beq_eq_false_iff_ne.mpr (hps ▸ hk)]
        rw [if_neg Bool.false_ne_true, if_neg Bool.false_ne_true]
        exact ih
      · rw [if_neg (show ¬(p1, p2).1 = src from hps)]
        rw [lookup_consW, lookup_consW]
        cases hkp : k == p1
        · rw [if_neg Bool.false_ne_true, if_neg Bool.false_ne_true]
          exact ih
        · rw [if_pos rfl, if_pos rfl]
  · clear hany
    induction w with
    | nil =>
      rw [List.nil_append, lookup_consW,
        if_neg (by rw [beq_eq_false_iff_ne.mpr hk]; exact Bool.false_ne_true)]
    | cons p w' ih =>
      obtain ⟨p1, p2⟩ := p
      rw [List.cons_append, lookup_consW, lookup_consW]
      cases hkp : k == p1
      · rw [if_neg Bool.false_ne_true, if_neg Bool.false_ne_true]
        exact ih
      · rw [if_pos rfl, if_pos rfl]


theorem findOrCreate_found (s : Sheet) (d : YMD) (r : Nat)
    (h : findRowByDate s d = some r) : findOrCreateRowByDate s d = (s, r) := by
  unfold findOrCreateRowByDate
  rw [h]

theorem findRowByDate_ge (s : Sheet) (d : YMD) (r : Nat)
    (h : findRowByDate s d = some r) : 3 ≤ r := by
  have hmem := List.mem_of_find?_eq_some (by simpa [findRowByDate] using h)
  have := List.mem_range'_1.mp (by simpa [dataRowIndices] using hmem)
  omega

theorem writeCell_lookup_ne (st : UpdState) (r c : Nat) (v : CellValue)
    (fmt : Option String) (ow : Bool) (src fld k : String) (hk : k ≠ src) :
    (writeCell st r c v fmt ow src fld).written.lookup k = st.written.lookup k := by
  unfold writeCell
  dsimp only
  cases h2 : (setCell st.sheet r c v fmt ow).2
  · rw [if_neg Bool.false_ne_true]
  · rw [if_pos rfl]
    exact lookup_appendWritten_ne _ _ _ _ hk

theorem stepPair_lookup_ne (row colB colS : Nat) (src : String) (q : Option (ℚ × ℚ))
    (ow : Bool) (st : UpdState) (k : String) (hk : k ≠ src) :
    (stepPair row colB colS src q ow st).written.lookup k = st.written.lookup k := by
  cases q with
  | none => rfl
  | some bs =>
    unfold stepPair
    rw [writeCell_lookup_ne _ _ _ _ _ _ _ _ _ hk, writeCell_lookup_ne _ _ _ _ _ _ _ _ _ hk]

theorem stepRate_lookup_ne (row col : Nat) (src fld fmtS : String) (transform : ℚ → ℚ)
    (q : Option ℚ) (ow : Bool) (st : UpdState) (k : String) (hk : k ≠ src) :
    (stepRate row col src fld fmtS transform q ow st).written.lookup k =
      st.written.lookup k := by
  cases q with
  | none => rfl
  | some v => exact writeCell_lookup_ne _ _ _ _ _ _ _ _ _ hk

theorem stepRepeat_lookup_ne (row col : Nat) (fmtS src fld : String) (st : UpdState)
    (k : String) (hk : k ≠ src) :
    (stepRepeat row col fmtS src fld st).written.lookup k = st.written.lookup k := by
  unfold stepRepeat
  dsimp only
  cases h2 : (repeatPreviousValueIfBlank st.sheet row col (some fmtS)).2
  · rw [if_neg Bool.false_ne_true]
  · rw [if_pos rfl]
    exact lookup_appendWritten_ne _ _ _ _ hk

theorem stepUsdBrl_written_buyKept (st : UpdState) (row : Nat) (v spread : ℚ)
    (hnbB : isBlank (getCell st.sheet row 2).value = false)
    (hbC : isBlank (getCell st.sheet row 3).value = true) :
    (stepUsdBrl row (some v) spread false st).written =
      appendWritten st.written "usd_brl" "venda" := by
  simp only [stepUsdBrl]
  rw [setCell_noop _ _ _ _ _ hnbB]
  have hsnd : ∀ (x : CellValue) (fmt : Option String),
      (setCell st.sheet row 3 x fmt false).2 = true := by
    intro x fmt
    rw [setCell_snd, hbC]
    rfl
  rw [hsnd]
  rw [if_pos rfl]
  rw [if_neg (show ¬((st.sheet, false).2 = true) from Bool.false_ne_true)]


theorem stepLog_written (row : Nat) (t : String) (st : UpdState) :
    (stepLog row t st).written = st.written := rfl

/-- C1.  The official-rate block with overwrite disabled: a
non-blank buy cell (column B) is never replaced; the sell written into
a blank column C is derived from the authoritative buy — the parsed and
re-quantized pre-existing cell value when one was kept (falling back to
the freshly fetched value only when parsing raises) — plus the spread;
with a blank buy cell the fresh value is written and the sell is that
fresh value plus the spread; and in the B-pre-filled/C-blank scenario
the report of `update_xlsx_quotes_and_log` holds exactly
`{"venda"}` for the `usd_brl` source. -/
theorem usd_sell_derivation :
    (∀ (st : UpdState) (row : Nat) (v spread : ℚ), 1 ≤ row →
      (isBlank (getCell st.sheet row 2).value = false →
        getCell (stepUsdBrl row (some v) spread false st).sheet row 2
            = getCell st.sheet row 2 ∧
          (isBlank (getCell st.sheet row 3).value = true →
            (getCell (stepUsdBrl row (some v) spread false st).sheet row 3).value =
              .num (quantize4 ((match toDecimal (getCell st.sheet row 2).value with
                | .ok (some parsed) => quantize4 parsed
                | _ => quantize4 v) + spread)))) ∧
      (isBlank (getCell st.sheet row 2).value = true →
        isBlank (getCell st.sheet row 3).value = true →
        (getCell (stepUsdBrl row (some v) spread false st).sheet row 3).value =
          .num (quantize4 (quantize4 v + spread)))) ∧
    (∀ (s : Sheet) (a : QuotesArgs) (row : Nat) (v : ℚ),
      a.overwriteQuotes = false → a.usd_brl = some v →
      findRowByDate s a.targetDate = some row →
      isBlank (getCell s row 2).value = false →
      isBlank (getCell s row 3).value = true →
      (applyQuotesAndLog s a).2.lookup "usd_brl" = some ["venda"]) := by
  constructor
  · intro st row v spread hrow
    constructor
    · intro hnbB
      simp only [stepUsdBrl]
      rw [setCell_noop _ _ _ _ _ hnbB]
      constructor
      · exact getCell_setCell_other _ _ _ _ _ _ _ _ hrow (by omega) hrow (by omega)
          (by rintro ⟨-, hc⟩; omega)
      · intro hbC
        rw [if_pos ⟨Bool.false_ne_true, by rw [hnbB]; exact Bool.false_ne_true⟩]
        rw [getCell_setCell_self _ _ _ _ _ _ hrow (by omega)
          (by rw [setCell_snd, hbC]; rfl)]
        rw [qAdd_eq]
    · intro hbB hbC
      simp only [stepUsdBrl]
      have hsnd2 : (setCell st.sheet row 2 (.num (quantize4 v))
          (some quoteNumberFormat) false).2 = true := by
        rw [setCell_snd, hbB]
        rfl
      rw [hsnd2]
      rw [if_neg (by rintro ⟨hcon, -⟩; exact hcon rfl)]
      have hc3 : getCell (setCell st.sheet row 2 (.num (quantize4 v))
          (some quoteNumberFormat) false).1 row 3 = getCell st.sheet row 3 :=
        getCell_setCell_other _ _ _ _ _ _ _ _ hrow (by omega) hrow (by omega)
          (by rintro ⟨-, hc⟩; omega)
      rw [getCell_setCell_self _ _ _ _ _ _ hrow (by omega)
        (by rw [setCell_snd, hc3, hbC]; rfl)]
      rw [qAdd_eq]
  · intro s a row v how husd hfind hnbB hbC
    have hrow : 3 ≤ row := findRowByDate_ge s a.targetDate row hfind
    simp only [applyQuotesAndLog]
    rw [findOrCreate_found s a.targetDate row hfind]
    rw [stepLog_written]
    rw [stepRepeat_lookup_ne _ _ _ _ _ _ _ (by decide)]
    rw [stepRepeat_lookup_ne _ _ _ _ _ _ _ (by decide)]
    rw [stepRepeat_lookup_ne _ _ _ _ _ _ _ (by decide)]
    rw [stepRate_lookup_ne _ _ _ _ _ _ _ _ _ _ (by decide)]
    rw [stepRate_lookup_ne _ _ _ _ _ _ _ _ _ _ (by decide)]
    rw [stepRate_lookup_ne _ _ _ _ _ _ _ _ _ _ (by decide)]
    rw [stepPair_lookup_ne _ _ _ _ _ _ _ _ (by decide)]
    rw [stepPair_lookup_ne _ _ _ _ _ _ _ _ (by decide)]
    rw [stepPair_lookup_ne _ _ _ _ _ _ _ _ (by decide)]
    rw [stepPair_lookup_ne _ _ _ _ _ _ _ _ (by decide)]
    rw [husd, how]
    have hs1b : getCell (setCell (s, row).1 row 1 (.dateV a.targetDate)
        (some dateNumberFormat) true).1 row 2 = getCell s row 2 :=
      getCell_setCell_other _ _ _ _ _ _ _ _ (by omega) (by omega) (by omega) (by omega)
        (by rintro ⟨-, hc⟩; omega)
    have hs1c : getCell (setCell (s, row).1 row 1 (.dateV a.targetDate)
        (some dateNumberFormat) true).1 row 3 = getCell s row 3 :=
      getCell_setCell_other _ _ _ _ _ _ _ _ (by omega) (by omega) (by omega) (by omega)
        (by rintro ⟨-, hc⟩; omega)
    rw [stepUsdBrl_written_buyKept _ _ _ _ (by rw [hs1b]; exact hnbB)
      (by rw [hs1c]; exact hbC)]
    rfl


/-- Ledger with row 3 for 05/01/2024: buy cell B3 pre-filled with 5.2,
sell cell C3 blank. -/
def exW1 : Sheet :=
  [[], [],
    [⟨.dateV ⟨2024, 1, 5⟩, "General"⟩, ⟨.num (mkRat 52 10), quoteNumberFormat⟩]]

def argsW1 : QuotesArgs :=
  { targetDate := ⟨2024, 1, 5⟩, usd_brl := some (mkRat 55 10) }

/-- Witness for C1: on the B3-pre-filled/C3-blank ledger the update
reports exactly `venda` for the official source, and the sell value is
the *existing* 5.2 plus the 0.0020 spread (5.2020), not the freshly
fetched 5.5. -/
theorem usd_sell_derivation_witness :
    (applyQuotesAndLog exW1 argsW1).2.lookup "usd_brl" = some ["venda"] ∧
      (getCell (stepUsdBrl 3 (some (mkRat 55 10)) (mkRat 2 1000) false
        ⟨exW1, []⟩).sheet 3 3).value = .num (mkRat 5202 1000) := by
  constructor
  · exact usd_sell_derivation.2 exW1 argsW1 3 (mkRat 55 10) rfl rfl rfl
      (by decide) (by decide)
  · have h := ((usd_sell_derivation.1 ⟨exW1, []⟩ 3 (mkRat 55 10) (mkRat 2 1000)
      (by omega)).1 (by decide)).2 (by decide)
    rw [h, ← qAdd_eq]
    decide


theorem writeCell_sheet (st : UpdState) (r c : Nat) (v : CellValue)
    (fmt : Option String) (ow : Bool) (src fld : String) :
    (writeCell st r c v fmt ow src fld).sheet = (setCell st.sheet r c v fmt ow).1 := rfl

theorem stepUsdBrl_preserves (row : Nat) (q : Option ℚ) (spread : ℚ) (st : UpdState)
    (rr cc : Nat) (hrow : 1 ≤ row) (hrr : 1 ≤ rr) (hcc : 1 ≤ cc)
    (hnb : isBlank (getCell st.sheet rr cc).value = false) :
    getCell (stepUsdBrl row q spread false st).sheet rr cc = getCell st.sheet rr cc := by
  cases q with
  | none => rfl
  | some v =>
    simp only [stepUsdBrl]
    have h1 : getCell (setCell st.sheet row 2 (.num (quantize4 v))
        (some quoteNumberFormat) false).1 rr cc = getCell st.sheet rr cc :=
      setCell_false_preserves _ _ _ _ _ _ _ hrow (by omega) hrr hcc hnb
    rw [setCell_false_preserves _ _ _ _ _ _ _ hrow (by omega) hrr hcc
      (by rw [h1]; exact hnb)]
    exact h1

theorem stepPair_preserves (row colB colS : Nat) (src : String) (q : Option (ℚ × ℚ))
    (st : UpdState) (rr cc : Nat) (hrow : 1 ≤ row) (hb : 1 ≤ colB) (hs : 1 ≤ colS)
    (hrr : 1 ≤ rr) (hcc : 1 ≤ cc)
    (hnb : isBlank (getCell st.sheet rr cc).value = false) :
    getCell (stepPair row colB colS src q false st).sheet rr cc =
      getCell st.sheet rr cc := by
  cases q with
  | none => rfl
  | some bs =>
    unfold stepPair
    rw [writeCell_sheet, writeCell_sheet]
    have h1 : getCell (setCell st.sheet row colB (.num (quantize4 bs.1))
        (some quoteNumberFormat) false).1 rr cc = getCell st.sheet rr cc :=
      setCell_false_preserves _ _ _ _ _ _ _ hrow hb hrr hcc hnb
    rw [setCell_false_preserves _ _ _ _ _ _ _ hrow hs hrr hcc (by rw [h1]; exact hnb)]
    exact h1

theorem stepRate_preserves (row col : Nat) (src fld fmtS : String) (transform : ℚ → ℚ)
    (q : Option ℚ) (st : UpdState) (rr cc : Nat) (hrow : 1 ≤ row) (hcol : 1 ≤ col)
    (hrr : 1 ≤ rr) (hcc : 1 ≤ cc)
    (hnb : isBlank (getCell st.sheet rr cc).value = false) :
    getCell (stepRate row col src fld fmtS transform q false st).sheet rr cc =
      getCell st.sheet rr cc := by
  cases q with
  | none => rfl
  | some v =>
    unfold stepRate
    rw [writeCell_sheet]
    exact setCell_false_preserves _ _ _ _ _ _ _ hrow hcol hrr hcc hnb

theorem stepRepeat_preserves (row col : Nat) (fmtS src fld : String) (st : UpdState)
    (rr cc : Nat) (hrow : 1 ≤ row) (hcol : 1 ≤ col) (hrr : 1 ≤ rr) (hcc : 1 ≤ cc)
    (hnb : isBlank (getCell st.sheet rr cc).value = false) :
    getCell (stepRepeat row col fmtS src fld st).sheet rr cc =
      getCell st.sheet rr cc := by
  unfold stepRepeat
  exact repeatPrev_preserves_nonblank _ _ _ _ _ _ hrow hcol hrr hcc hnb

theorem stepLog_preserves (row : Nat) (t : String) (st : UpdState) (rr cc : Nat)
    (hrow : 1 ≤ row) (hrr : 1 ≤ rr) (hcc : 1 ≤ cc)
    (hne : ¬(rr = row ∧ cc = logColumnIndex)) :
    getCell (stepLog row t st).sheet rr cc = getCell st.sheet rr cc := by
  unfold stepLog
  exact getCell_setCell_other _ _ _ _ _ _ _ _ hrow (by decide) hrr hcc
    (by rintro ⟨h1, h2⟩; exact hne ⟨h1.symm, h2.symm⟩)


theorem ensureLayout_preserves_value (s : Sheet) (r c : Nat)
    (hr : 1 ≤ r) (hc : 1 ≤ c)
    (hnb : isBlank (getCell s r c).value = false)
    (hhead : ¬(r ≤ 2 ∧ 12 ≤ c ∧ c ≤ 15))
    (hmig : ¬(c = 12 ∧ looksLikeLog (getCell s r 12).value = true)) :
    (getCell (ensureLayout s) r c).value = (getCell s r c).value := by
  by_cases hr3 : 3 ≤ r
  · rw [getCell_ensureLayout_data s r c hr3]
    have hrow12 : getCell s r 12 = (s.getD (r - 1) []).getD 11 Cell.default := rfl
    by_cases hl : looksLikeLog ((s.getD (r - 1) []).getD 11 Cell.default).value = true
    · have hc12 : c ≠ 12 := fun he => hmig ⟨he, by rw [hrow12]; exact hl⟩
      cases hv : ((s.getD (r - 1) []).getD 11 Cell.default).value with
      | str t =>
        rw [migrateRow_log _ t hv (hv ▸ hl)]
        show ((setAt Cell.default _ 11 _).getD (c - 1) Cell.default).value = _
        rw [getD_setAt, if_neg (show ¬(11 = c - 1) by omega)]
        split_ifs with hb
        · rw [getD_setAt]
          by_cases hc15 : c = 15
          · exfalso
            have : getCell s r 15 = (s.getD (r - 1) []).getD 14 Cell.default := rfl
            rw [hc15, this, hb] at hnb
            cases hnb
          · rw [if_neg (show ¬(14 = c - 1) by omega)]
            rfl
        · rfl
      | blank => rw [hv] at hl; cases hl
      | num q => rw [hv] at hl; cases hl
      | dateV d => rw [hv] at hl; cases hl
    · rw [migrateRow_not_log _ (by
        cases hlv : looksLikeLog ((s.getD (r - 1) []).getD 11 Cell.default).value
        · rfl
        · exact absurd hlv hl)]
      rfl
  · have hgc : getCell (ensureLayout s) r c = getCell (setHeaders s) r c := by
      show ((migrateRowsFrom 2 (setHeaders s)).getD (r - 1) []).getD (c - 1) Cell.default = _
      rw [getD_migrateRowsFrom, if_pos (by omega)]
      rfl
    rw [hgc, getCell_setHeaders_ne s r c hr hc hhead]


theorem applyQuotes_preserves (s : Sheet) (a : QuotesArgs) (rr cc : Nat)
    (how : a.overwriteQuotes = false) (hrr : 1 ≤ rr) (hcc : 1 ≤ cc)
    (hnb : isBlank (getCell s rr cc).value = false)
    (hd : ¬(rr = (findOrCreateRowByDate s a.targetDate).2 ∧ cc = 1))
    (hl : ¬(rr = (findOrCreateRowByDate s a.targetDate).2 ∧ cc = logColumnIndex)) :
    getCell (applyQuotesAndLog s a).1 rr cc = getCell s rr cc := by
  have hrow3 := findOrCreate_row_ge s a.targetDate
  unfold applyQuotesAndLog
  dsimp only
  rw [how]
  set row := (findOrCreateRowByDate s a.targetDate).2 with hrowdef
  have h0 : getCell (findOrCreateRowByDate s a.targetDate).1 rr cc = getCell s rr cc :=
    getCell_findOrCreate_other s a.targetDate rr cc hrr hcc hd
  set s1 := (setCell (findOrCreateRowByDate s a.targetDate).1 row 1 (.dateV a.targetDate)
    (some dateNumberFormat) true).1 with hs1
  have h1 : getCell s1 rr cc = getCell s rr cc := by
    rw [hs1, getCell_setCell_other _ _ _ _ _ _ _ _ (by omega) (by omega) hrr hcc
      (fun hand => hd ⟨hand.1.symm, hand.2.symm⟩)]
    exact h0
  set st1 := stepUsdBrl row a.usd_brl a.spread false (⟨s1, []⟩ : UpdState) with hst1
  have e1 : getCell st1.sheet rr cc = getCell s rr cc := by
    rw [hst1, stepUsdBrl_preserves _ _ _ _ _ _ (by omega) hrr hcc (by rw [h1]; exact hnb)]
    exact h1
  set st2 := stepPair row 4 5 "ptax_usd" a.ptax_usd false st1 with hst2
  have e2 : getCell st2.sheet rr cc = getCell s rr cc := by
    rw [hst2, stepPair_preserves _ _ _ _ _ _ _ _ (by omega) (by omega) (by omega)
      hrr hcc (by rw [e1]; exact hnb)]
    exact e1
  set st3 := stepPair row 6 7 "turismo" a.turismo false st2 with hst3
  have e3 : getCell st3.sheet rr cc = getCell s rr cc := by
    rw [hst3, stepPair_preserves _ _ _ _ _ _ _ _ (by omega) (by omega) (by omega)
      hrr hcc (by rw [e2]; exact hnb)]
    exact e2
  set st4 := stepPair row 8 9 "ptax_eur" a.ptax_eur false st3 with hst4
  have e4 : getCell st4.sheet rr cc = getCell s rr cc := by
    rw [hst4, stepPair_preserves _ _ _ _ _ _ _ _ (by omega) (by omega) (by omega)
      hrr hcc (by rw [e3]; exact hnb)]
    exact e3
  set st5 := stepPair row 10 11 "ptax_chf" a.ptax_chf false st4 with hst5
  have e5 : getCell st5.sheet rr cc = getCell s rr cc := by
    rw [hst5, stepPair_preserves _ _ _ _ _ _ _ _ (by omega) (by omega) (by omega)
      hrr hcc (by rw [e4]; exact hnb)]
    exact e4
  set st6 := stepRate row 12 "tjlp" "valor" percentNumberFormat
    (fun v => quantize4 (qDivPow10 v 2)) a.tjlp false st5 with hst6
  have e6 : getCell st6.sheet rr cc = getCell s rr cc := by
    rw [hst6, stepRate_preserves _ _ _ _ _ _ _ _ _ _ (by omega) (by omega)
      hrr hcc (by rw [e5]; exact hnb)]
    exact e5
  set st7 := stepRate row 13 "selic" "selic" percentNumberFormat
    (fun v => quantize4 (qDivPow10 v 2)) a.selic false st6 with hst7
  have e7 : getCell st7.sheet rr cc = getCell s rr cc := by
    rw [hst7, stepRate_preserves _ _ _ _ _ _ _ _ _ _ (by omega) (by omega)
      hrr hcc (by rw [e6]; exact hnb)]
    exact e6
  set st8 := stepRate row 14 "selic" "cdi" cdiNumberFormat quantize10
    a.cdi false st7 with hst8
  have e8 : getCell st8.sheet rr cc = getCell s rr cc := by
    rw [hst8, stepRate_preserves _ _ _ _ _ _ _ _ _ _ (by omega) (by omega)
      hrr hcc (by rw [e7]; exact hnb)]
    exact e7
  set st9 := stepRepeat row 12 percentNumberFormat "tjlp" "valor_repetido" st8 with hst9
  have e9 : getCell st9.sheet rr cc = getCell s rr cc := by
    rw [hst9, stepRepeat_preserves _ _ _ _ _ _ _ _ (by omega) (by omega)
      hrr hcc (by rw [e8]; exact hnb)]
    exact e8
  set st10 := stepRepeat row 13 percentNumberFormat "selic" "selic_repetido" st9 with hst10
  have e10 : getCell st10.sheet rr cc = getCell s rr cc := by
    rw [hst10, stepRepeat_preserves _ _ _ _ _ _ _ _ (by omega) (by omega)
      hrr hcc (by rw [e9]; exact hnb)]
    exact e9
  set st11 := stepRepeat row 14 cdiNumberFormat "selic" "cdi_repetido" st10 with hst11
  have e11 : getCell st11.sheet rr cc = getCell s rr cc := by
    rw [hst11, stepRepeat_preserves _ _ _ _ _ _ _ _ (by omega) (by omega)
      hrr hcc (by rw [e10]; exact hnb)]
    exact e10
  rw [stepLog_preserves _ _ _ _ _ (by omega) hrr hcc hl]
  exact e11


theorem applyUsdBrl_preserves (s : Sheet) (value spread : ℚ) (d : YMD) (rr cc : Nat)
    (hrr : 1 ≤ rr) (hcc : 1 ≤ cc)
    (hnb : isBlank (getCell s rr cc).value = false)
    (hd : ¬(rr = (findOrCreateRowByDate s d).2 ∧ cc = 1)) :
    getCell (applyUsdBrl s value spread d false) rr cc = getCell s rr cc := by
  have hrow3 := findOrCreate_row_ge s d
  unfold applyUsdBrl
  dsimp only
  set row := (findOrCreateRowByDate s d).2 with hrowdef
  have h0 : getCell (findOrCreateRowByDate s d).1 rr cc = getCell s rr cc :=
    getCell_findOrCreate_other s d rr cc hrr hcc hd
  set s1 := (setCell (findOrCreateRowByDate s d).1 row 1 (.dateV d)
    (some dateNumberFormat) true).1 with hs1
  have h1 : getCell s1 rr cc = getCell s rr cc := by
    rw [hs1, getCell_setCell_other _ _ _ _ _ _ _ _ (by omega) (by omega) hrr hcc
      (fun hand => hd ⟨hand.1.symm, hand.2.symm⟩)]
    exact h0
  rw [stepUsdBrl_preserves _ _ _ _ _ _ (by omega) hrr hcc (by rw [h1]; exact hnb)]
  exact h1

theorem applyDolarTurismo_preserves (s : Sheet) (buy sell : ℚ) (d : YMD) (rr cc : Nat)
    (hrr : 1 ≤ rr) (hcc : 1 ≤ cc)
    (hnb : isBlank (getCell s rr cc).value = false)
    (hd : ¬(rr = (findOrCreateRowByDate s d).2 ∧ cc = 1)) :
    getCell (applyDolarTurismo s buy sell d false) rr cc = getCell s rr cc := by
  have hrow3 := findOrCreate_row_ge s d
  unfold applyDolarTurismo
  dsimp only
  have h0 : getCell (findOrCreateRowByDate s d).1 rr cc = getCell s rr cc :=
    getCell_findOrCreate_other s d rr cc hrr hcc hd
  rw [stepPair_preserves _ _ _ _ _ _ _ _ (by omega) (by omega) (by omega) hrr hcc
    (show isBlank (getCell (findOrCreateRowByDate s d).1 rr cc).value = false by
      rw [h0]; exact hnb)]
  exact h0

theorem applyDolarPtax_preserves (s : Sheet) (buy sell : ℚ) (d : YMD) (rr cc : Nat)
    (hrr : 1 ≤ rr) (hcc : 1 ≤ cc)
    (hnb : isBlank (getCell s rr cc).value = false)
    (hd : ¬(rr = (findOrCreateRowByDate s d).2 ∧ cc = 1)) :
    getCell (applyDolarPtax s buy sell d false) rr cc = getCell s rr cc := by
  have hrow3 := findOrCreate_row_ge s d
  unfold applyDolarPtax
  dsimp only
  have h0 : getCell (findOrCreateRowByDate s d).1 rr cc = getCell s rr cc :=
    getCell_findOrCreate_other s d rr cc hrr hcc hd
  rw [stepPair_preserves _ _ _ _ _ _ _ _ (by omega) (by omega) (by omega) hrr hcc
    (show isBlank (getCell (findOrCreateRowByDate s d).1 rr cc).value = false by
      rw [h0]; exact hnb)]
  exact h0

theorem applyEuroPtax_preserves (s : Sheet) (buy sell : ℚ) (d : YMD) (rr cc : Nat)
    (hrr : 1 ≤ rr) (hcc : 1 ≤ cc)
    (hnb : isBlank (getCell s rr cc).value = false)
    (hd : ¬(rr = (findOrCreateRowByDate s d).2 ∧ cc = 1)) :
    getCell (applyEuroPtax s buy sell d false) rr cc = getCell s rr cc := by
  have hrow3 := findOrCreate_row_ge s d
  unfold applyEuroPtax
  dsimp only
  have h0 : getCell (findOrCreateRowByDate s d).1 rr cc = getCell s rr cc :=
    getCell_findOrCreate_other s d rr cc hrr hcc hd
  rw [stepPair_preserves _ _ _ _ _ _ _ _ (by omega) (by omega) (by omega) hrr hcc
    (show isBlank (getCell (findOrCreateRowByDate s d).1 rr cc).value = false by
      rw [h0]; exact hnb)]
  exact h0

theorem applyChfPtax_preserves (s : Sheet) (buy sell : ℚ) (d : YMD) (rr cc : Nat)
    (hrr : 1 ≤ rr) (hcc : 1 ≤ cc)
    (hnb : isBlank (getCell s rr cc).value = false)
    (hd : ¬(rr = (findOrCreateRowByDate s d).2 ∧ cc = 1)) :
    getCell (applyChfPtax s buy sell d false) rr cc = getCell s rr cc := by
  have hrow3 := findOrCreate_row_ge s d
  unfold applyChfPtax
  dsimp only
  have h0 : getCell (findOrCreateRowByDate s d).1 rr cc = getCell s rr cc :=
    getCell_findOrCreate_other s d rr cc hrr hcc hd
  rw [stepPair_preserves _ _ _ _ _ _ _ _ (by omega) (by omega) (by omega) hrr hcc
    (show isBlank (getCell (findOrCreateRowByDate s d).1 rr cc).value = false by
      rw [h0]; exact hnb)]
  exact h0


/-- A never-migrated ledger whose only dated row carries legacy log
text `"OK 1"` in the old combined log column (column 12). -/
def exC2 : Sheet :=
  [[], [],
   [⟨.dateV ⟨2024, 1, 1⟩, "General"⟩] ++ List.replicate 10 Cell.default ++
     [⟨.str "OK 1", "General"⟩]]

/-- An update call for the next day with every overwrite flag at its
default `false`. -/
def argsC2 : QuotesArgs := { targetDate := ⟨2024, 1, 2⟩ }

/-- C2 (counterexample).  The claim allows only the date cell and the
status cell of the target row to be rewritten over a non-blank value.
On `exC2` the target row is the freshly created row 4, yet the
non-blank legacy log text at cell (3, 12) is blanked by the on-load
migration that every update call performs. -/
theorem quotes_update_blanks_legacy_log_cell :
    isBlank (getCell exC2 3 12).value = false ∧
      argsC2.overwriteQuotes = false ∧
      (findOrCreateRowByDate (ensureLayout exC2) argsC2.targetDate).2 = 4 ∧
      (getCell (updateXlsxQuotesAndLog exC2 argsC2).1 3 12).value = .blank := by
  refine ⟨by decide, rfl, by decide, by decide⟩

/-- C2 (amended).  With overwrite disabled, `update_xlsx_quotes_and_log`
and the per-source updaters preserve the value of every cell that was
non-blank before the call, except for: the header zone rewritten by the
on-load layout normalisation (rows 1–2, columns 12–15), any column-12
cell holding legacy log-like text (which the migration blanks — the
refutation of the original exception list), the target row's date cell
(column A), and, for the combined updater only, the target row's status
cell (column O). -/
theorem update_nonblank_preservation (s : Sheet) (a : QuotesArgs)
    (value spread buy sell : ℚ) (d : YMD) (rr cc : Nat)
    (how : a.overwriteQuotes = false) (hrr : 1 ≤ rr) (hcc : 1 ≤ cc)
    (hnb : isBlank (getCell s rr cc).value = false)
    (hhead : ¬(rr ≤ 2 ∧ 12 ≤ cc ∧ cc ≤ 15))
    (hmig : ¬(cc = 12 ∧ looksLikeLog (getCell s rr 12).value = true))
    (hdQ : ¬(rr = (findOrCreateRowByDate (ensureLayout s) a.targetDate).2 ∧ cc = 1))
    (hlQ : ¬(rr = (findOrCreateRowByDate (ensureLayout s) a.targetDate).2 ∧
      cc = logColumnIndex))
    (hdD : ¬(rr = (findOrCreateRowByDate (ensureLayout s) d).2 ∧ cc = 1)) :
    (getCell (updateXlsxQuotesAndLog s a).1 rr cc).value = (getCell s rr cc).value ∧
      (getCell (updateXlsxUsdBrl s value spread d false) rr cc).value =
        (getCell s rr cc).value ∧
      (getCell (updateXlsxDolarTurismo s buy sell d false) rr cc).value =
        (getCell s rr cc).value ∧
      (getCell (updateXlsxDolarPtax s buy sell d false) rr cc).value =
        (getCell s rr cc).value ∧
      (getCell (updateXlsxEuroPtax s buy sell d false) rr cc).value =
        (getCell s rr cc).value ∧
      (getCell (updateXlsxChfPtax s buy sell d false) rr cc).value =
        (getCell s rr cc).value := by
  have hEns := ensureLayout_preserves_value s rr cc hrr hcc hnb hhead hmig
  have hnbE : isBlank (getCell (ensureLayout s) rr cc).value = false := by
    rw [hEns]; exact hnb
  refine ⟨?_, ?_, ?_, ?_, ?_, ?_⟩
  · show (getCell (applyQuotesAndLog (ensureLayout s) a).1 rr cc).value = _
    rw [applyQuotes_preserves (ensureLayout s) a rr cc how hrr hcc hnbE hdQ hlQ]
    exact hEns
  · show (getCell (applyUsdBrl (ensureLayout s) value spread d false) rr cc).value = _
    rw [applyUsdBrl_preserves (ensureLayout s) value spread d rr cc hrr hcc hnbE hdD]
    exact hEns
  · show (getCell (applyDolarTurismo (ensureLayout s) buy sell d false) rr cc).value = _
    rw [applyDolarTurismo_preserves (ensureLayout s) buy sell d rr cc hrr hcc hnbE hdD]
    exact hEns
  · show (getCell (applyDolarPtax (ensureLayout s) buy sell d false) rr cc).value = _
    rw [applyDolarPtax_preserves (ensureLayout s) buy sell d rr cc hrr hcc hnbE hdD]
    exact hEns
  · show (getCell (applyEuroPtax (ensureLayout s) buy sell d false) rr cc).value = _
    rw [applyEuroPtax_preserves (ensureLayout s) buy sell d rr cc hrr hcc hnbE hdD]
    exact hEns
  · show (getCell (applyChfPtax (ensureLayout s) buy sell d false) rr cc).value = _
    rw [applyChfPtax_preserves (ensureLayout s) buy sell d rr cc hrr hcc hnbE hdD]
    exact hEns

/-- A ledger whose dated row 3 already holds the official buy 5.0000 in
column B. -/
def exW2 : Sheet :=
  [[], [],
   [⟨.dateV ⟨2024, 1, 1⟩, "General"⟩, ⟨.num (mkRat 5 1), quoteNumberFormat⟩]]

/-- A same-day combined update carrying a fresh official quote, with
the overwrite flag at its default `false`. -/
def argsW2 : QuotesArgs :=
  { targetDate := ⟨2024, 1, 1⟩, usd_brl := some (mkRat 53 10) }

/-- Witness for the amended C2 at cell (3, 2) of a concrete ledger. -/
theorem update_nonblank_preservation_witness :
    isBlank (getCell exW2 3 2).value = false ∧
      ((getCell (updateXlsxQuotesAndLog exW2 argsW2).1 3 2).value =
          (getCell exW2 3 2).value ∧
        (getCell (updateXlsxUsdBrl exW2 (mkRat 53 10) (mkRat 20 10000) ⟨2024, 1, 1⟩
            false) 3 2).value = (getCell exW2 3 2).value ∧
        (getCell (updateXlsxDolarTurismo exW2 (mkRat 6 1) (mkRat 61 10) ⟨2024, 1, 1⟩
            false) 3 2).value = (getCell exW2 3 2).value ∧
        (getCell (updateXlsxDolarPtax exW2 (mkRat 6 1) (mkRat 61 10) ⟨2024, 1, 1⟩
            false) 3 2).value = (getCell exW2 3 2).value ∧
        (getCell (updateXlsxEuroPtax exW2 (mkRat 6 1) (mkRat 61 10) ⟨2024, 1, 1⟩
            false) 3 2).value = (getCell exW2 3 2).value ∧
        (getCell (updateXlsxChfPtax exW2 (mkRat 6 1) (mkRat 61 10) ⟨2024, 1, 1⟩
            false) 3 2).value = (getCell exW2 3 2).value) :=
  ⟨by decide,
    update_nonblank_preservation exW2 argsW2 (mkRat 53 10) (mkRat 20 10000)
      (mkRat 6 1) (mkRat 61 10) ⟨2024, 1, 1⟩ 3 2 rfl (by decide) (by decide)
      (by decide) (by decide) (by decide) (by decide) (by decide) (by decide)⟩

end CotacoesMoedas
